import Mathlib

/-!
Verification of the status evaluation engine of the Safe To Swim dashboard
(`src/status.js`).

Modelling conventions (shallow embedding of the JavaScript source):

* A JavaScript number is modelled as `Option ℝ`: `some x` is a finite number,
  `none` stands for a non-finite number (`NaN`, `±Infinity`) or an absent
  (`undefined`) numeric field.  `Number.isFinite` is `Option.isSome`.
* Calendar dates are modelled as integer day indices (the value of
  `toDayIndex`); `toDate` truncation and millisecond arithmetic are folded
  into this index, so "gap ≤ N days" becomes subtraction of day indices.
* A possibly-missing string field is `Option String`; the loose JS test
  `x != null` and the truthiness test on strings are modelled explicitly.
* Fallible JavaScript (property access on `undefined`, destructuring of
  `undefined`, indexing past the end of an array) is modelled with
  `Except String`.
* `Float64Array` cells hold exact small integer counts and exact log sums in
  the idealisation; per-day increment loops are modelled as per-day
  aggregations over the sample list.  Out-of-range typed-array writes are
  dropped, matching the no-op semantics of out-of-range typed array stores.
-/

open scoped Classical

noncomputable section

/-- Result field of a raw record: JS value that is either `null`, `undefined`,
a non-finite number (or a string coercing to `NaN`), or a finite number. -/
inductive JSRes
  | null
  | undef
  | nan
  | num (x : ℝ)

/-- Numeric coercion `+r.Result` of a result value, `none` when non-finite.
`+null` is `0` in JavaScript, hence `null ↦ some 0`. -/
def toNum : JSRes → Option ℝ
  | .null => some 0
  | .undef => none
  | .nan => none
  | .num x => some x

/-- Loose inequality test `r.Result != null`: false exactly on nullish values. -/
def resultNotNullish : JSRes → Bool
  | .null => false
  | .undef => false
  | _ => true

/-- JS `<` on possibly-non-finite numbers: comparisons involving `NaN` or
`undefined` are false. -/
def jsLt : Option ℝ → Option ℝ → Prop
  | some x, some y => x < y
  | _, _ => False

/-- JS `<=` on possibly-non-finite numbers: comparisons involving `NaN` or
`undefined` are false. -/
def jsLe : Option ℝ → Option ℝ → Prop
  | some x, some y => x ≤ y
  | _, _ => False

/-- Truthiness of a JS string value: `undefined`, `null` and `""` are falsy. -/
def truthyStr : Option String → Bool
  | some s => s ≠ ""
  | none => false

/-- JS `||` on string-valued fields (`""` falls through to the right operand). -/
def jsOrStr (a b : Option String) : Option String :=
  if truthyStr a then a else b

/-- JS `String.prototype.includes` substring test. -/
def jsIncludes (s needle : String) : Bool :=
  decide (needle.toList <:+: s.toList)

/-- JS `String.prototype.toLowerCase`, modelled character-wise. -/
def jsToLower (s : String) : String := String.mk (s.data.map Char.toLower)

/-- One raw sample record (see §6 of the data model and `data-fetch.js`).
`SampleDate` is the parsed calendar-day index, `none` when the date is
absent or unparseable (an invalid date compares false against anything). -/
structure Record where
  StationCode : Option String
  Analyte : Option String
  MethodName : Option String
  SampleDate : Option ℤ
  Result : JSRes
  manualClosureFlag : Bool

/-- A configured status (an entry of `criteria.statuses`); only the `name`
is ever inspected by the engine, the display fields are irrelevant here. -/
structure Status where
  name : String
deriving DecidableEq

/-- The `criteria.statuses` catalog: the named statuses the evaluator accesses
directly, plus dynamic lookup `S[elseName]` for the configured else-status. -/
structure StatusCatalog where
  closure : Status
  not_enough_data : Status
  low_risk : Status
  lookup : String → Option Status

/-- The `six_week_geomean` rule object; `max` is `none` when the key is
missing from the configuration. -/
structure GeoRule where
  max : Option ℝ

/-- The `p90_30day` rule object. -/
structure P90Rule where
  max : Option ℝ

/-- The `low_risk` rule block of a water-body type. Every field may be
missing. -/
structure LowRisk where
  min_samples_six_week : Option ℝ
  six_week_geomean : Option GeoRule
  p90_30day : Option P90Rule

/-- The `low_risk` block modelling the empty object literal. -/
def emptyLowRisk : LowRisk := ⟨none, none, none⟩

/-- Rules for one water-body type (`criteria.rules.waterbody_types[t]`). -/
structure WBRules where
  low_risk : Option LowRisk
  else_status : Option String
  bacteria : Option String

/-- The `criteria.rules.default` block. -/
structure DefaultRules where
  low_risk : Option LowRisk
  status : Option String

/-- Analyte preference lists (`criteria.analytes` / `criteria.rules.analytes`). -/
structure AnalytePrefs where
  saltwater : Option (List String)
  freshwater : Option (List String)

/-- The `criteria.rules` object. -/
structure Rules where
  waterbody_types_saltwater : Option WBRules
  waterbody_types_freshwater : Option WBRules
  default : Option DefaultRules
  analytes : Option AnalytePrefs

/-- The loaded `criteria.json` configuration object. -/
structure Criteria where
  rules : Option Rules
  statuses : StatusCatalog
  analytes : Option AnalytePrefs

/-- Lookup `criteria.rules.waterbody_types[isSaltwater ? "saltwater" : "freshwater"]`
through the optional-chaining accesses of the source. -/
def wbRulesOf (criteria : Option Criteria) (isSaltwater : Bool) : Option WBRules :=
  (criteria.bind Criteria.rules).bind fun rs =>
    if isSaltwater then rs.waterbody_types_saltwater else rs.waterbody_types_freshwater

/-- Access `criteria.rules.default.low_risk` with optional chaining. -/
def defaultLowRiskOf (criteria : Option Criteria) : Option LowRisk :=
  ((criteria.bind Criteria.rules).bind Rules.default).bind DefaultRules.low_risk

/-- Access `criteria.rules.default.status` with optional chaining. -/
def defaultStatusOf (criteria : Option Criteria) : Option String :=
  ((criteria.bind Criteria.rules).bind Rules.default).bind DefaultRules.status

/-- The pair produced by `selectTypeRules`: a `low_risk` block (always an
object, possibly empty) and the optional else-status name. -/
structure TypeRules where
  low_risk : LowRisk
  else_status : Option String

/-- `selectTypeRules` (status.js lines 58-65): the per-type `low_risk` block
with fallback to `criteria.rules.default.low_risk` and then to the empty
object; the else-status falls back to `criteria.rules.default.status`.
Objects are truthy, so the first present block wins; for the (string-valued)
else-status, JS `||` lets the empty string fall through. -/
def selectTypeRules (criteria : Option Criteria) (isSaltwater : Bool) : TypeRules :=
  let wb := (wbRulesOf criteria isSaltwater).getD ⟨none, none, none⟩
  { low_risk := ((wb.low_risk).orElse fun _ => defaultLowRiskOf criteria).getD emptyLowRisk
    else_status := jsOrStr wb.else_status (defaultStatusOf criteria) }

/-- Preferred analyte lists when the criteria provide none
(`DEFAULT_ANALYTE_MAP`). -/
def DEFAULT_ANALYTE_MAP_saltwater : List String := ["Enterococcus", "Entero", "ENT"]

/-- Freshwater half of `DEFAULT_ANALYTE_MAP`. -/
def DEFAULT_ANALYTE_MAP_freshwater : List String := ["E. coli", "E Coli", "E.Coli", "EC"]

/-- `analytePrefsFromCriteria`: preference lists from `criteria.analytes` or
`criteria.rules.analytes`, with fallback to the defaults. The result is the
pair (saltwater list, freshwater list). -/
def analytePrefsFromCriteria (criteria : Option Criteria) : List String × List String :=
  let prefs : Option AnalytePrefs :=
    (criteria.bind Criteria.analytes).orElse fun _ =>
      (criteria.bind Criteria.rules).bind Rules.analytes
  ((prefs.bind AnalytePrefs.saltwater).getD DEFAULT_ANALYTE_MAP_saltwater,
   (prefs.bind AnalytePrefs.freshwater).getD DEFAULT_ANALYTE_MAP_freshwater)

/-- `makeLowerSet`: the set of lower-cased strings of a list (membership in a
JS `Set` is modelled by `List.contains` on the lower-cased list). -/
def makeLowerSet (arr : List String) : List String :=
  arr.map jsToLower

/-- Occurrences of a string in a list (the count accumulated in the
frequency `Map` of `pickAnalyteForEnvironment`). -/
def countOf (l : List String) (a : String) : ℕ :=
  (l.filter (fun b => b == a)).length

/-- First occurrences of the elements of a list, in order of first
appearance (the key order of a JS `Map` built by insertion). -/
def firstOccs (l : List String) : List String :=
  l.foldl (fun acc a => if acc.contains a then acc else acc ++ [a]) []

/-- Most frequent analyte: JS sorts the `Map` entries by descending count
with a stable sort and takes the first, i.e. the earliest-inserted key of
maximal count. -/
def mostFrequent (l : List String) : Option String :=
  (firstOccs l).foldl
    (fun best a =>
      match best with
      | none => some a
      | some b => if countOf l b < countOf l a then some a else best)
    none

/-- `pickAnalyteForEnvironment` (status.js lines 69-89): first preferred
analyte available among the records (case-insensitive), else the most
frequent analyte present, else `null`.  `filter(Boolean)` drops absent and
empty analyte names. -/
def pickAnalyteForEnvironment (stationRecord : List Record) (isSaltwater : Bool)
    (criteria : Option Criteria) : Option String :=
  let prefs := analytePrefsFromCriteria criteria
  let wantedList := if isSaltwater then prefs.1 else prefs.2
  let available := (stationRecord.filterMap Record.Analyte).filter (fun s => s ≠ "")
  let availSet := makeLowerSet available
  match wantedList.find? (fun nm => availSet.contains (jsToLower nm)) with
  | some nm => some nm
  | none => if available.length ≠ 0 then mostFrequent available else none

/-- `geomean` (status.js lines 16-21): keep finite strictly positive values;
`NaN` (here `none`) when none remain, otherwise `exp` of the mean of the
natural logs. -/
def geomean (values : List (Option ℝ)) : Option ℝ :=
  let vals := values.filter fun v =>
    match v with
    | some x => decide (0 < x)
    | none => false
  if vals.length = 0 then none
  else some (Real.exp ((vals.map fun v => Real.log (v.getD 0)).sum / vals.length))

/-- `quantile` (status.js lines 23-31): keep finite values, sort ascending,
linear interpolation at position `p·(n−1)`; `NaN` on empty input. -/
def quantile (arr : List (Option ℝ)) (p : ℝ) : Option ℝ :=
  let a := (arr.filterMap id).insertionSort (· ≤ ·)
  if a.length = 0 then none
  else
    let idx : ℝ := ((a.length : ℝ) - 1) * p
    let lo := ⌊idx⌋
    let hi := ⌈idx⌉
    if lo = hi then some (a.getD lo.toNat 0)
    else
      let t := idx - (lo : ℝ)
      some (a.getD lo.toNat 0 * (1 - t) + a.getD hi.toNat 0 * t)

/-- Validity filter of `computeWindowMetrics`: non-`ddPCR` method (tolerant
of a missing method name, case-insensitive substring test) and, when a
(truthy) indicator analyte is given, an exact analyte match. -/
def isValidRec (indicatorAnalyte : Option String) (r : Record) : Bool :=
  if jsIncludes (jsToLower (r.MethodName.getD "")) "ddpcr" then false
  else if truthyStr indicatorAnalyte && !(r.Analyte == indicatorAnalyte) then false
  else true

/-- Window membership of `computeWindowMetrics`: the sample date is on or
before `asOf` and the gap is at most `days` days (both inclusive; a missing
or unparseable date compares false). -/
def inLastDays (asOf : ℤ) (days : ℤ) (r : Record) : Bool :=
  match r.SampleDate with
  | some dt => decide (dt ≤ asOf) && decide (asOf - dt ≤ days)
  | none => false

/-- The window-metrics value object. `sampleCount30D` is `none` on the
sweep path, where the metrics object is built without that key. -/
structure Metrics where
  sampleCount6W : Option ℝ
  geoMean6W : Option ℝ
  p90_30d : Option ℝ
  sampleCount30D : Option ℝ
  manualClosureFlag : Bool

/-- Options bag of `computeWindowMetrics`. -/
structure WMOpts where
  indicatorAnalyte : Option String

/-- `computeWindowMetrics` (status.js lines 95-136): counts, six-week
geometric mean, thirty-day 90th percentile and manual-closure flag over the
records eligible in each window as of `asOfDate`. -/
def computeWindowMetrics (records : List Record) (asOfDate : ℤ) (opts : WMOpts) : Metrics :=
  let ind := opts.indicatorAnalyte
  let filterWindow : ℤ → List Record := fun days =>
    records.filter fun r => isValidRec ind r && inLastDays asOfDate days r
  let sixW := filterWindow 42
  let sixWVals := (sixW.map fun r => toNum r.Result).filter Option.isSome
  let thirtyD := filterWindow 30
  let thirtyVals := (thirtyD.map fun r => toNum r.Result).filter Option.isSome
  { sampleCount6W := some (sixWVals.length : ℝ)
    geoMean6W := geomean sixWVals
    p90_30d := quantile thirtyVals 0.9
    sampleCount30D := some (thirtyVals.length : ℝ)
    manualClosureFlag := sixW.any Record.manualClosureFlag }

/-- Shape of the rules object consumed by `evaluateStatusFromMetrics`: the
callers pass either a raw per-type rules object (whose `low_risk` may be
missing — destructuring then throws) or the object literal built on the
sweep path. -/
structure EvalRules where
  low_risk : Option LowRisk
  else_status : Option String

/-- Result object of `evaluateStatusFromMetrics`: the chosen status (absent
when the dynamic else-status lookup misses), with `_reasons` and `_metrics`
attached by `withReasons`. -/
structure StatusResult where
  status : Option Status
  reasons : List String
  metrics : Metrics

/-- `evaluateStatusFromMetrics` (status.js lines 140-192): decision table
over the window metrics.  Destructuring a missing `low_risk`, reading
`criteria.statuses` off an undefined criteria object, or reading `.max` off
a missing threshold rule throws a `TypeError`, modelled as `Except.error`. -/
def evaluateStatusFromMetrics (metrics : Metrics) (typeRules : EvalRules)
    (criteria : Option Criteria) : Except String StatusResult :=
  match typeRules.low_risk with
  | none => .error "TypeError: cannot destructure typeRules.low_risk"
  | some lr =>
    match criteria with
    | none => .error "TypeError: cannot read statuses of undefined"
    | some crit =>
      let S := crit.statuses
      if metrics.manualClosureFlag then
        .ok ⟨some S.closure, ["Manual closure"], metrics⟩
      else if metrics.sampleCount6W = none ∨ jsLt metrics.sampleCount6W lr.min_samples_six_week then
        .ok ⟨some S.not_enough_data, ["Insufficient samples"], metrics⟩
      else
        match metrics.geoMean6W with
        | none => .ok ⟨some S.not_enough_data, ["Invalid geomean (6w)"], metrics⟩
        | some g =>
          match metrics.p90_30d with
          | none => .ok ⟨some S.not_enough_data, ["Invalid p90 (30d)"], metrics⟩
          | some p =>
            match lr.six_week_geomean with
            | none => .error "TypeError: cannot read max of six_week_geomean"
            | some geoRule =>
              match lr.p90_30day with
              | none => .error "TypeError: cannot read max of p90_30day"
              | some p90Rule =>
                if jsLe (some g) geoRule.max ∧ jsLe (some p) p90Rule.max then
                  .ok ⟨some S.low_risk, ["Pass geomean", "Pass single sample"], metrics⟩
                else
                  .ok ⟨typeRules.else_status.bind S.lookup,
                    (if ¬jsLe (some g) geoRule.max then ["Fail geomean"] else []) ++
                      (if ¬jsLe (some p) p90Rule.max then ["Fail single sample"] else []),
                    metrics⟩

/-- Saltwater flag normalisation of `computeAllStatuses` (booleans or the
string "True" from the flags file are modelled as an already-parsed
`Option Bool` per station code). -/
def stationIsSalt (stationRecord : List Record) (saltFlags : String → Option Bool) : Bool :=
  (((stationRecord.head?.bind Record.StationCode).bind saltFlags).getD false)

/-- The per-station body of `computeAllStatuses` (status.js lines 204-222):
the single-date "current status" query. Type rules come straight from
`criteria.rules.waterbody_types` (no `selectTypeRules` fallback on this
path); the indicator analyte is the configured `bacteria` or the
conventional default. -/
def currentStatusForStation (records : List Record) (criteria : Option Criteria)
    (isSalt : Bool) (asOf : ℤ) : Except String StatusResult :=
  let typeRules := wbRulesOf criteria isSalt
  let indicatorAnalyte : Option String :=
    ((typeRules.bind WBRules.bacteria).orElse fun _ =>
      some (if isSalt then "Enterococcus" else "E. coli"))
  let metrics := computeWindowMetrics records asOf ⟨indicatorAnalyte⟩
  evaluateStatusFromMetrics metrics
    ⟨(typeRules.getD ⟨none, none, none⟩).low_risk, (typeRules.getD ⟨none, none, none⟩).else_status⟩
    criteria

/-- Inclusive prefix sums (`cumsum`, status.js lines 235-240), written as a
recursion carrying the running sum: `out[0] = 0`, `out[i+1] = out[i] + src[i]`. -/
def cumsumFrom (acc : ℝ) : List ℝ → List ℝ
  | [] => [acc]
  | v :: vs => acc :: cumsumFrom (acc + v) vs

/-- `cumsum` of a per-day array: length `n + 1`, starting at `0`. -/
def cumsum (src : List ℝ) : List ℝ := cumsumFrom 0 src

/-- Lower clamp of `windowSum`: `Math.max(0, Math.min(i0, prefix.length - 2))`. -/
def wsLo (len : ℕ) (i0 : ℤ) : ℤ := max 0 (min i0 ((len : ℤ) - 2))

/-- Upper clamp of `windowSum`: `Math.max(0, Math.min(i1 + 1, prefix.length - 1))`. -/
def wsHi (len : ℕ) (i1 : ℤ) : ℤ := max 0 (min (i1 + 1) ((len : ℤ) - 1))

/-- `windowSum` (status.js lines 241-247): inclusive window sum over
`[i0, i1]` with both bounds clamped into range, `0` on an empty clamped
window. -/
def windowSum (pre : List ℝ) (i0 i1 : ℤ) : ℝ :=
  let a := wsLo pre.length i0
  let b := wsHi pre.length i1
  if b ≤ a then 0 else pre.getD b.toNat 0 - pre.getD a.toNat 0

/-- `canonicalizeReasons` (status.js lines 249-255): drop falsy entries,
trim, drop empties, sort, join with `|`. -/
def canonicalizeReasons (arr : List String) : String :=
  String.intercalate "|"
    ((((arr.filter fun s => s ≠ "").map String.trim).filter fun s => s.length ≠ 0).insertionSort
      (· ≤ ·))

/-- One prepared sample of the series builder: day index, finite numeric
value, lower-cased method name. -/
structure Sample where
  day : ℤ
  val : ℝ
  method : String

/-- The `raw` sample list of `buildStatusSeriesForStation` (lines 271-281):
records matching the chosen analyte, with a non-nullish result, a parseable
date and a finite value. The precomputed-`ts` shortcut of the source is the
same day index in this model. -/
def rawSamplesOf (stationRecord : List Record) (analyte : Option String) : List Sample :=
  stationRecord.filterMap fun r =>
    if r.Analyte == analyte && resultNotNullish r.Result then
      match r.SampleDate, toNum r.Result with
      | some d, some x => some ⟨d, x, jsToLower (r.MethodName.getD "")⟩
      | _, _ => none
    else none

/-- The `samples` list: `raw` with ddPCR rows excluded (line 284). -/
def samplesOf (stationRecord : List Record) (analyte : Option String) : List Sample :=
  (rawSamplesOf stationRecord analyte).filter fun s => !jsIncludes s.method "ddpcr"

/-- Minimum sample day (the scan loop of lines 303-308). Junk value `0` on
the empty list, which the builder never queries. -/
def minDayOf : List Sample → ℤ
  | [] => 0
  | s :: rest => rest.foldl (fun m t => min m t.day) s.day

/-- Maximum sample day. -/
def maxDayOf : List Sample → ℤ
  | [] => 0
  | s :: rest => rest.foldl (fun m t => max m t.day) s.day

/-- `startDay = minDay − (W6 − 1)`, so early windows are defined. -/
def startDayOf (samples : List Sample) : ℤ := minDayOf samples - 41

/-- `endDay = max(maxDay, todayIdx)`: compute through today. -/
def endDayOf (samples : List Sample) (todayIdx : ℤ) : ℤ := max (maxDayOf samples) todayIdx

/-- `N = endDay − startDay + 1`: number of daily slots. -/
def slotsOf (samples : List Sample) (todayIdx : ℤ) : ℕ :=
  (endDayOf samples todayIdx - startDayOf samples + 1).toNat

/-- `offset = −startDay`, mapping a day to its array index `day + offset`. -/
def offsetOf (samples : List Sample) : ℤ := - startDayOf samples

/-- Samples hitting array cell `j` (the increment loops of lines 322-328
and 369-372 written as per-day aggregation). -/
def atIdx (samples : List Sample) (off : ℤ) (j : ℕ) : List Sample :=
  samples.filter fun s => s.day + off == (j : ℤ)

/-- Per-day sample counts (`countPerDay`). -/
def countPerDay (samples : List Sample) (off : ℤ) (N : ℕ) : List ℝ :=
  (List.range N).map fun j => ((atIdx samples off j).length : ℝ)

/-- Per-day counts of strictly positive values (`posCountPerDay`). -/
def posCountPerDay (samples : List Sample) (off : ℤ) (N : ℕ) : List ℝ :=
  (List.range N).map fun j =>
    (((atIdx samples off j).filter fun s => decide (0 < s.val)).length : ℝ)

/-- Per-day sums of natural logs of strictly positive values (`logSumPerDay`). -/
def logSumPerDay (samples : List Sample) (off : ℤ) (N : ℕ) : List ℝ :=
  (List.range N).map fun j =>
    ((((atIdx samples off j).filter fun s => decide (0 < s.val)).map fun s =>
      Real.log s.val).sum)

/-- The rolling six-week metrics at day index `j` (`metrics6wAtIndex`,
lines 335-342), over the three prefix-sum arrays. -/
structure M6 where
  sampleCount6W : ℝ
  geoMean6W : Option ℝ

/-- `metrics6wAtIndex`: window `[j − 41, j]`; geomean defined when the
window holds a positive value. -/
def metrics6wAtIndex (Pcount Pposcnt Plogsum : List ℝ) (j : ℤ) : M6 :=
  let j0 := j - 41
  let sampleCount6W := windowSum Pcount j0 j
  let posCnt6W := windowSum Pposcnt j0 j
  let logSum6W := windowSum Plogsum j0 j
  { sampleCount6W
    geoMean6W := if 0 < posCnt6W then some (Real.exp (logSum6W / posCnt6W)) else none }

/-- Bin count of the histogram percentile approximation (`BINS = 96`). -/
def BINS : ℕ := 96

/-- The `USE_LOG_BINS` switch (true in the source). -/
def USE_LOG_BINS : Bool := true

/-- The `1e-12` guard used before taking logs. -/
def logGuard : ℝ := 1 / 10 ^ 12

/-- Value range for p90 binning (lines 320, 349-352): min and max of all
sample values, with the degenerate or invalid range widened to
`[0.5·base, 1.5·base]`. On an empty sample list the min stays `+∞`, so the
base is `1`. -/
def binRangeOf (samples : List Sample) : ℝ × ℝ :=
  match samples with
  | [] => (0.5, 1.5)
  | s :: rest =>
    let vmin := rest.foldl (fun m t => min m t.val) s.val
    let vmax := rest.foldl (fun m t => max m t.val) s.val
    if vmin = vmax then (0.5 * vmin, 1.5 * vmin) else (vmin, vmax)

/-- `toBin` (lines 354-365): log-scale (or linear) bin of a value, clamped
into `[0, BINS − 1]`. -/
def toBin (vmin vmax : ℝ) (x : ℝ) : ℕ :=
  if USE_LOG_BINS then
    let lx := Real.log (max x logGuard)
    let l0 := Real.log (max vmin logGuard)
    let l1 := Real.log (max vmax logGuard)
    let t := (lx - l0) / (l1 - l0)
    (max 0 (min ((BINS : ℤ) - 1) ⌊t * (BINS : ℝ)⌋)).toNat
  else
    let t := (x - vmin) / (vmax - vmin)
    (max 0 (min ((BINS : ℤ) - 1) ⌊t * (BINS : ℝ)⌋)).toNat

/-- Per-day occurrence counts of bin `b` (row `H[b]` of the day×bin
matrix, lines 368-372). -/
def binPerDay (samples : List Sample) (vmin vmax : ℝ) (off : ℤ) (N : ℕ) (b : ℕ) : List ℝ :=
  (List.range N).map fun j =>
    (((atIdx samples off j).filter fun s => toBin vmin vmax s.val == b).length : ℝ)

/-- The bin scan of `p90_30d_atIndex`: accumulate per-bin window counts from
the lowest bin until the target is reached; `BINS` when never reached. -/
def scanBins (w : ℕ → ℝ) (target : ℝ) : ℕ :=
  (((List.range BINS).foldl
    (fun st b =>
      match st.2 with
      | some _ => st
      | none =>
        let acc := st.1 + w b
        if target ≤ acc then (acc, some b) else (acc, none))
    ((0 : ℝ), (none : Option ℕ))).2).getD BINS

/-- `p90_30d_atIndex` (lines 375-396): binned 30-day p90. Window
`[j − 29, j]`; `NaN` when the window is empty; otherwise the log-space
midpoint of the bin at which the cumulative count reaches `0.9 · total`. -/
def p90_30d_atIndex (Pcount : List ℝ) (Pbin : ℕ → List ℝ) (vmin vmax : ℝ) (j : ℤ) :
    Option ℝ :=
  let j0 := j - 29
  let total := windowSum Pcount j0 j
  if total ≤ 0 then none
  else
    let target := 0.9 * total
    let b := scanBins (fun b => windowSum (Pbin b) j0 j) target
    if USE_LOG_BINS then
      let l0 := Real.log (max vmin logGuard)
      let l1 := Real.log (max vmax logGuard)
      let t := ((b : ℝ) + 0.5) / (BINS : ℝ)
      some (Real.exp (l0 + t * (l1 - l0)))
    else
      let t := ((b : ℝ) + 0.5) / (BINS : ℝ)
      some (vmin + t * (vmax - vmin))

/-- Prefix sums of the per-day counts (`P_count`). -/
def PcountOf (samples : List Sample) (todayIdx : ℤ) : List ℝ :=
  cumsum (countPerDay samples (offsetOf samples) (slotsOf samples todayIdx))

/-- Prefix sums of the per-day positive counts (`P_poscnt`). -/
def PposOf (samples : List Sample) (todayIdx : ℤ) : List ℝ :=
  cumsum (posCountPerDay samples (offsetOf samples) (slotsOf samples todayIdx))

/-- Prefix sums of the per-day log sums (`P_logsum`). -/
def PlogOf (samples : List Sample) (todayIdx : ℤ) : List ℝ :=
  cumsum (logSumPerDay samples (offsetOf samples) (slotsOf samples todayIdx))

/-- Per-bin prefix sums (`Pbin = H.map(cumsum)`). -/
def PbinOf (samples : List Sample) (todayIdx : ℤ) (b : ℕ) : List ℝ :=
  cumsum
    (binPerDay samples (binRangeOf samples).1 (binRangeOf samples).2 (offsetOf samples)
      (slotsOf samples todayIdx) b)

/-- The metrics object handed to the evaluator on day index `j` of the sweep
(lines 406-414); the manual closure flag is hard-wired to `false` there. -/
def dayMetrics (samples : List Sample) (todayIdx : ℤ) (j : ℕ) : Metrics :=
  let m6 := metrics6wAtIndex (PcountOf samples todayIdx) (PposOf samples todayIdx)
    (PlogOf samples todayIdx) (j : ℤ)
  { sampleCount6W := some m6.sampleCount6W
    geoMean6W := m6.geoMean6W
    p90_30d := p90_30d_atIndex (PcountOf samples todayIdx) (PbinOf samples todayIdx)
      (binRangeOf samples).1 (binRangeOf samples).2 (j : ℤ)
    sampleCount30D := none
    manualClosureFlag := false }

/-- A status series entry (the objects pushed at lines 428-436). `date` is
the day index (`fromDayIndex` is the identity of this model). -/
structure Entry where
  date : ℤ
  status : Option Status
  status_name : Option String
  metrics : Metrics
  reasons : List String
  reasonsKey : String
  reasonStr : String

/-- The change-point comparison key of an entry,
`status?.name ?? status?.status_name ?? "" ++ "||" ++ reasonsKey`. -/
def entryKey (e : Entry) : String := (e.status_name.getD "") ++ "||" ++ e.reasonsKey

/-- Build the entry pushed for one day from the evaluator result. -/
def mkEntry (day : ℤ) (res : StatusResult) : Entry :=
  let reasons := res.reasons
  { date := day
    status := res.status
    status_name := res.status.map Status.name
    metrics := res.metrics
    reasons := reasons
    reasonsKey := canonicalizeReasons reasons
    reasonStr := if reasons.length ≠ 0 then String.intercalate "\n" reasons
      else "No specific reason" }

/-- One day of the sweep (lines 402-421): metrics, evaluator (whose result
object is always truthy, so the `|| not_enough_data` fallback never fires),
entry. The rule object passed is
`low_risk: typeRules.low_risk || default || empty` — `typeRules.low_risk`
is an object and hence truthy, so it is always selected. -/
def dayEntry (criteria : Option Criteria) (typeRules : TypeRules)
    (samples : List Sample) (todayIdx : ℤ) (j : ℕ) : Except String Entry :=
  match evaluateStatusFromMetrics (dayMetrics samples todayIdx j)
      ⟨some typeRules.low_risk, typeRules.else_status⟩ criteria with
  | .error e => .error e
  | .ok res => .ok (mkEntry (startDayOf samples + j) res)

/-- The change-point emission loop over precomputed dense entries: push an
entry when the output is empty or its key differs from the key of the last
pushed entry (lines 398-439, with `prevKey` threaded explicitly). -/
def sweepGoP (key : Entry → String) : List Entry → List Entry → Option String → List Entry
  | [], out, _ => out
  | e :: rest, out, prev =>
    if out.isEmpty || (prev != some (key e)) then
      sweepGoP key rest (out ++ [e]) (some (key e))
    else sweepGoP key rest out prev

/-- The same loop with each day's entry produced fallibly (an evaluator
`TypeError` aborts the whole sweep). -/
def sweepGoE (key : Entry → String) (f : ℕ → Except String Entry) :
    List ℕ → List Entry → Option String → Except String (List Entry)
  | [], out, _ => .ok out
  | j :: js, out, prev =>
    match f j with
    | .error e => .error e
    | .ok e =>
      if out.isEmpty || (prev != some (key e)) then
        sweepGoE key f js (out ++ [e]) (some (key e))
      else sweepGoE key f js out prev

/-- The single not-enough-data entry returned when no analyte or no samples
exist (lines 289-300). -/
def noDataEntry (criteria : Option Criteria) (todayIdx : ℤ) : Entry :=
  let status := criteria.map fun c => c.statuses.not_enough_data
  { date := todayIdx
    status := status
    status_name := status.map Status.name
    metrics := ⟨some 0, none, none, none, false⟩
    reasons := []
    reasonsKey := ""
    reasonStr := "No specific reason" }

/-- `buildStatusSeriesForStation` (status.js lines 258-448): full status
history of one station as change-point segments, ending at today.  The
`for` loop breaks at the first day past today (`takeWhile` below); reading
`out[out.length − 1]` of an empty output throws. -/
def buildStatusSeriesForStation (stationRecord : List Record) (criteria : Option Criteria)
    (saltFlags : String → Option Bool) (todayIdx : ℤ) : Except String (List Entry) :=
  let isSaltwater := stationIsSalt stationRecord saltFlags
  let analyte := pickAnalyteForEnvironment stationRecord isSaltwater criteria
  let typeRules := selectTypeRules criteria isSaltwater
  let samples := samplesOf stationRecord analyte
  if analyte = none ∨ samples = [] then .ok [noDataEntry criteria todayIdx]
  else
    let startDay := startDayOf samples
    let js := (List.range (slotsOf samples todayIdx)).takeWhile fun (j : ℕ) =>
      decide ((j : ℤ) + startDay ≤ todayIdx)
    match sweepGoE entryKey (dayEntry criteria typeRules samples todayIdx) js [] none with
    | .error e => .error e
    | .ok out =>
      match out.getLast? with
      | none => .error "TypeError: cannot read date of undefined"
      | some last =>
        if last.date ≠ todayIdx then .ok (out ++ [{ last with date := todayIdx }])
        else .ok out

/-! Prefix-sum machinery: `windowSum` over a `cumsum` array equals the plain
sum over the clamped inclusive index window, and the per-day aggregation
arrays regroup into direct sums over the samples whose index falls in the
window. -/

theorem cumsumFrom_length (a : ℝ) (l : List ℝ) : (cumsumFrom a l).length = l.length + 1 := by
  induction l generalizing a with
  | nil => rfl
  | cons v vs ih => simp [cumsumFrom, ih]

theorem cumsum_length (l : List ℝ) : (cumsum l).length = l.length + 1 :=
  cumsumFrom_length 0 l

theorem cumsumFrom_getD (a : ℝ) (l : List ℝ) (i : ℕ) (h : i ≤ l.length) :
    (cumsumFrom a l).getD i 0 = a + (l.take i).sum := by
  induction l generalizing a i with
  | nil =>
    simp only [List.length_nil, Nat.le_zero] at h
    subst h
    simp [cumsumFrom]
  | cons v vs ih =>
    cases i with
    | zero => simp [cumsumFrom]
    | succ k =>
      simp only [cumsumFrom, List.getD_cons_succ, List.take_succ_cons, List.sum_cons]
      rw [ih (a + v) k (by simpa using h)]
      ring

theorem cumsum_getD (l : List ℝ) (i : ℕ) (h : i ≤ l.length) :
    (cumsum l).getD i 0 = (l.take i).sum := by
  rw [cumsum, cumsumFrom_getD 0 l i h, zero_add]

theorem take_sum_sub (src : List ℝ) (a b : ℕ) (hab : a ≤ b) :
    (src.take b).sum - (src.take a).sum = ((src.take b).drop a).sum := by
  conv_lhs => rw [← List.take_append_drop a (src.take b)]
  rw [List.sum_append, List.take_take, min_eq_left hab]
  ring

theorem windowSum_cumsum (src : List ℝ) (i0 j : ℤ) (h0 : i0 ≤ j) (hj : 0 ≤ j)
    (hjn : j < src.length) :
    windowSum (cumsum src) i0 j
      = ((src.take (j + 1).toNat).drop (max 0 i0).toNat).sum := by
  have hlen := cumsum_length src
  have hlo : wsLo (cumsum src).length i0 = max 0 i0 := by
    rw [hlen]; unfold wsLo; omega
  have hhi : wsHi (cumsum src).length j = j + 1 := by
    rw [hlen]; unfold wsHi; omega
  have hnb : ¬ (wsHi (cumsum src).length j ≤ wsLo (cumsum src).length i0) := by
    rw [hlo, hhi]; omega
  unfold windowSum
  rw [if_neg hnb, hlo, hhi]
  rw [cumsum_getD src (j + 1).toNat (by omega), cumsum_getD src (max 0 i0).toNat (by omega)]
  exact take_sum_sub src (max 0 i0).toNat (j + 1).toNat (by omega)

theorem range_decomp (a b : ℕ) (h : a ≤ b) :
    List.range b = List.range a ++ List.range' a (b - a) := by
  have h2 := List.range'_append 0 a (b - a) 1
  simp only [one_mul, zero_add] at h2
  rw [show b = a + (b - a) by omega, List.range_eq_range', List.range_eq_range',
    Nat.add_comm a (b - a), ← h2]
  simp

theorem take_map_range (F : ℕ → ℝ) (N b : ℕ) (h : b ≤ N) :
    (((List.range N).map F).take b) = (List.range b).map F := by
  rw [← List.map_take, List.take_range, min_eq_left h]

theorem drop_map_range (F : ℕ → ℝ) (b a : ℕ) (h : a ≤ b) :
    (((List.range b).map F).drop a) = (List.range' a (b - a)).map F := by
  rw [range_decomp a b h, List.map_append]
  have hlen : ((List.range a).map F).length = a := by simp
  calc ((List.range a).map F ++ (List.range' a (b - a)).map F).drop a
      = ((List.range a).map F ++ (List.range' a (b - a)).map F).drop
          ((List.range a).map F).length := by rw [hlen]
    _ = (List.range' a (b - a)).map F := List.drop_left _ _

theorem windowSum_map_range (F : ℕ → ℝ) (N : ℕ) (i0 j : ℤ) (h0 : i0 ≤ j) (hj : 0 ≤ j)
    (hjn : j < N) :
    windowSum (cumsum ((List.range N).map F)) i0 j
      = ((List.range' (max 0 i0).toNat ((j + 1).toNat - (max 0 i0).toNat)).map F).sum := by
  rw [windowSum_cumsum _ i0 j h0 hj (by simpa using hjn)]
  rw [take_map_range F N (j + 1).toNat (by omega)]
  rw [drop_map_range F (j + 1).toNat (max 0 i0).toNat (by omega)]

theorem sum_map_add_list (u v : ℕ → ℝ) (l : List ℕ) :
    (l.map fun j => u j + v j).sum = (l.map u).sum + (l.map v).sum := by
  induction l with
  | nil => simp
  | cons a l ih => simp [ih]; ring

theorem sum_indicator_range' (g : ℝ) (idx : ℤ) (lo k : ℕ) :
    ((List.range' lo k).map fun (j : ℕ) => if idx = (j : ℤ) then g else 0).sum
      = if (lo : ℤ) ≤ idx ∧ idx < (lo : ℤ) + k then g else 0 := by
  induction k generalizing lo with
  | zero =>
    rw [List.range'_zero, List.map_nil, List.sum_nil, if_neg (by omega)]
  | succ k ih =>
    rw [List.range'_succ, List.map_cons, List.sum_cons, ih (lo + 1)]
    push_cast
    by_cases h1 : idx = (lo : ℤ)
    · rw [if_pos h1, if_neg (by omega), if_pos (by omega)]
      ring
    · rw [if_neg h1]
      by_cases h2 : ((lo : ℤ) + 1 ≤ idx ∧ idx < (lo : ℤ) + 1 + k)
      · rw [if_pos h2, if_pos (by omega)]
        ring
      · rw [if_neg h2, if_neg (by omega)]
        ring

theorem atIdx_cons (s : Sample) (ss : List Sample) (off : ℤ) (j : ℕ) :
    atIdx (s :: ss) off j
      = if s.day + off = (j : ℤ) then s :: atIdx ss off j else atIdx ss off j := by
  unfold atIdx
  rw [List.filter_cons]
  by_cases h : s.day + off = (j : ℤ)
  · rw [if_pos (by simpa using h), if_pos h]
  · rw [if_neg (by simpa using h), if_neg h]

theorem regroup_sum (g : Sample → ℝ) (samples : List Sample) (off : ℤ) (lo k : ℕ) :
    ((List.range' lo k).map fun j => ((atIdx samples off j).map g).sum).sum
      = ((samples.filter fun s =>
          decide ((lo : ℤ) ≤ s.day + off) && decide (s.day + off < (lo : ℤ) + k)).map g).sum := by
  induction samples with
  | nil =>
    simp [atIdx]
  | cons s ss ih =>
    have hfun : ∀ j ∈ List.range' lo k,
        ((atIdx (s :: ss) off j).map g).sum
          = (if s.day + off = (j : ℤ) then g s else 0) + ((atIdx ss off j).map g).sum := by
      intro j _
      rw [atIdx_cons]
      by_cases h : s.day + off = (j : ℤ)
      · rw [if_pos h, if_pos h]; simp
      · rw [if_neg h, if_neg h]; simp
    rw [List.map_congr_left hfun, sum_map_add_list, ih,
      sum_indicator_range' (g s) (s.day + off) lo k, List.filter_cons]
    by_cases h : ((lo : ℤ) ≤ s.day + off ∧ s.day + off < (lo : ℤ) + k)
    · rw [if_pos h, if_pos (by simpa using h)]
      simp
    · rw [if_neg h, if_neg (by simpa using h), zero_add]

theorem sum_map_one (l : List Sample) : ((l.map fun _ => (1 : ℝ)).sum) = l.length := by
  induction l with
  | nil => simp
  | cons a l ih =>
    simp [ih]
    ring

/-- The window predicate realised by a prefix-sum window query `[i0, j]`. -/
def inWin (off i0 j : ℤ) (s : Sample) : Bool :=
  decide (max 0 i0 ≤ s.day + off) && decide (s.day + off ≤ j)

theorem windowSum_agg (g : Sample → ℝ) (samples : List Sample) (off : ℤ) (N : ℕ) (i0 j : ℤ)
    (h0 : i0 ≤ j) (hj : 0 ≤ j) (hjn : j < N) :
    windowSum (cumsum ((List.range N).map fun jj => ((atIdx samples off jj).map g).sum)) i0 j
      = ((samples.filter (inWin off i0 j)).map g).sum := by
  rw [windowSum_map_range _ N i0 j h0 hj hjn, regroup_sum]
  have hpred : ∀ s : Sample,
      (decide ((((max 0 i0).toNat : ℕ) : ℤ) ≤ s.day + off)
        && decide (s.day + off
            < (((max 0 i0).toNat : ℕ) : ℤ) + (((j + 1).toNat - (max 0 i0).toNat : ℕ) : ℤ)))
      = inWin off i0 j s := by
    intro s
    unfold inWin
    have e1 : (((max 0 i0).toNat : ℕ) : ℤ) = max 0 i0 := Int.toNat_of_nonneg (le_max_left 0 i0)
    have hmj : max 0 i0 ≤ j + 1 := by omega
    have e2 : (((j + 1).toNat - (max 0 i0).toNat : ℕ) : ℤ) = j + 1 - max 0 i0 := by omega
    rw [e1, e2]
    congr 1
    exact decide_eq_decide.mpr (by omega)
  have hfilter : (samples.filter fun s =>
        decide ((((max 0 i0).toNat : ℕ) : ℤ) ≤ s.day + off)
          && decide (s.day + off
              < (((max 0 i0).toNat : ℕ) : ℤ) + (((j + 1).toNat - (max 0 i0).toNat : ℕ) : ℤ)))
      = samples.filter (inWin off i0 j) := by
    refine List.filter_congr ?_
    intro s _
    exact hpred s
  rw [hfilter]

theorem windowSum_count (samples : List Sample) (off : ℤ) (N : ℕ) (i0 j : ℤ)
    (h0 : i0 ≤ j) (hj : 0 ≤ j) (hjn : j < N) :
    windowSum (cumsum (countPerDay samples off N)) i0 j
      = ((samples.filter (inWin off i0 j)).length : ℝ) := by
  have hcount : countPerDay samples off N
      = (List.range N).map fun jj => ((atIdx samples off jj).map fun _ => (1 : ℝ)).sum := by
    unfold countPerDay
    refine List.map_congr_left ?_
    intro jj _
    rw [sum_map_one]
  rw [hcount, windowSum_agg _ samples off N i0 j h0 hj hjn, sum_map_one]

theorem atIdx_filter (p : Sample → Bool) (samples : List Sample) (off : ℤ) (j : ℕ) :
    (atIdx samples off j).filter p = atIdx (samples.filter p) off j := by
  unfold atIdx
  rw [List.filter_filter, List.filter_filter]
  refine List.filter_congr ?_
  intro s _
  exact Bool.and_comm ..

theorem posCountPerDay_eq (samples : List Sample) (off : ℤ) (N : ℕ) :
    posCountPerDay samples off N
      = countPerDay (samples.filter fun s => decide (0 < s.val)) off N := by
  unfold posCountPerDay countPerDay
  refine List.map_congr_left ?_
  intro j _
  rw [atIdx_filter]

theorem logSumPerDay_eq (samples : List Sample) (off : ℤ) (N : ℕ) :
    logSumPerDay samples off N
      = (List.range N).map fun jj =>
          ((atIdx (samples.filter fun s => decide (0 < s.val)) off jj).map fun s =>
            Real.log s.val).sum := by
  unfold logSumPerDay
  refine List.map_congr_left ?_
  intro j _
  rw [atIdx_filter]

theorem windowSum_pos (samples : List Sample) (off : ℤ) (N : ℕ) (i0 j : ℤ)
    (h0 : i0 ≤ j) (hj : 0 ≤ j) (hjn : j < N) :
    windowSum (cumsum (posCountPerDay samples off N)) i0 j
      = (((samples.filter fun s => decide (0 < s.val)).filter (inWin off i0 j)).length : ℝ) := by
  rw [posCountPerDay_eq, windowSum_count _ off N i0 j h0 hj hjn]

theorem windowSum_log (samples : List Sample) (off : ℤ) (N : ℕ) (i0 j : ℤ)
    (h0 : i0 ≤ j) (hj : 0 ≤ j) (hjn : j < N) :
    windowSum (cumsum (logSumPerDay samples off N)) i0 j
      = (((samples.filter fun s => decide (0 < s.val)).filter (inWin off i0 j)).map fun s =>
          Real.log s.val).sum := by
  rw [logSumPerDay_eq, windowSum_agg _ _ off N i0 j h0 hj hjn]

/-! Sweep loop: the change-point emission loop is `List.destutter'` on the
dense per-day entry list, keyed by change of `entryKey`. -/

/-- Key-difference relation driving change-point emission. -/
def keyNe (key : Entry → String) (x y : Entry) : Prop := key x ≠ key y

instance (key : Entry → String) : DecidableRel (keyNe key) := fun _ _ =>
  instDecidableNot

/-- Default entry (only used to name values extracted from `Except.ok`). -/
instance : Inhabited Entry :=
  ⟨⟨0, none, none, ⟨none, none, none, none, false⟩, [], "", ""⟩⟩

theorem sweepGoP_append (key : Entry → String) (l : List Entry) :
    ∀ (out : List Entry) (b : Entry),
      sweepGoP key l (out ++ [b]) (some (key b))
        = out ++ List.destutter' (keyNe key) b l := by
  induction l with
  | nil =>
    intro out b
    simp [sweepGoP, List.destutter'_nil]
  | cons e rest ih =>
    intro out b
    rw [sweepGoP]
    by_cases h : key b = key e
    · have hcond : ((out ++ [b]).isEmpty || (some (key b) != some (key e))) = false := by
        simp [h]
      have hne : ¬ keyNe key b e := by simp [keyNe, h]
      rw [hcond, if_neg (by simp), ih out b, List.destutter'_cons_neg rest hne]
    · have hcond : ((out ++ [b]).isEmpty || (some (key b) != some (key e))) = true := by
        simp [h]
      have hne : keyNe key b e := h
      rw [hcond, if_pos rfl, ih (out ++ [b]) e, List.destutter'_cons_pos rest hne]
      simp

theorem sweepGoP_eq_destutter (key : Entry → String) (e : Entry) (l : List Entry) :
    sweepGoP key (e :: l) [] none = List.destutter' (keyNe key) e l := by
  rw [sweepGoP]
  have hcond : (([] : List Entry).isEmpty || ((none : Option String) != some (key e))) = true := by
    simp
  rw [hcond, if_pos rfl]
  have := sweepGoP_append key l [] e
  simpa using this

theorem sweepGoE_eq_sweepGoP (key : Entry → String) (f : ℕ → Except String Entry)
    (g : ℕ → Entry) :
    ∀ (js : List ℕ), (∀ j ∈ js, f j = .ok (g j)) → ∀ (out : List Entry) (prev : Option String),
      sweepGoE key f js out prev = .ok (sweepGoP key (js.map g) out prev) := by
  intro js
  induction js with
  | nil =>
    intro _ out prev
    simp [sweepGoE, sweepGoP]
  | cons j js ih =>
    intro hg out prev
    have hj : f j = .ok (g j) := hg j (by simp)
    rw [List.map_cons, sweepGoP, sweepGoE, hj]
    simp only []
    by_cases hc : (out.isEmpty || (prev != some (key (g j)))) = true
    · rw [if_pos hc, if_pos hc]
      exact ih (fun x hx => hg x (by simp [hx])) _ _
    · rw [if_neg hc, if_neg hc]
      exact ih (fun x hx => hg x (by simp [hx])) _ _

theorem sweepGoE_ok_forall (key : Entry → String) (f : ℕ → Except String Entry) :
    ∀ (js : List ℕ) (out : List Entry) (prev : Option String) (res : List Entry),
      sweepGoE key f js out prev = .ok res → ∀ j ∈ js, ∃ e, f j = .ok e := by
  intro js
  induction js with
  | nil =>
    intro _ _ _ _ j hj
    simp at hj
  | cons j js ih =>
    intro out prev res h x hx
    rw [sweepGoE] at h
    cases hf : f j with
    | error e => rw [hf] at h; exact absurd h (by simp)
    | ok e =>
      rw [hf] at h
      have h' : (if (out.isEmpty || (prev != some (key e))) = true then
          sweepGoE key f js (out ++ [e]) (some (key e))
        else sweepGoE key f js out prev) = .ok res := h
      rcases List.mem_cons.mp hx with hx | hx
      · exact ⟨e, hx ▸ hf⟩
      · by_cases hc : (out.isEmpty || (prev != some (key e))) = true
        · rw [if_pos hc] at h'
          exact ih _ _ _ h' x hx
        · rw [if_neg hc] at h'
          exact ih _ _ _ h' x hx

theorem destutter'_const_key (key : Entry → String) (l : List Entry) :
    ∀ (b : Entry), (∀ x ∈ l, key x = key b) →
      List.destutter' (keyNe key) b l = [b] := by
  induction l with
  | nil =>
    intro b _
    exact List.destutter'_nil ..
  | cons e rest ih =>
    intro b hb
    have hne : ¬ keyNe key b e := by
      have := hb e (by simp)
      simp [keyNe, this]
    rw [List.destutter'_cons_neg rest hne]
    exact ih b fun x hx => hb x (by simp [hx])

/-! Evaluator case lemmas. -/

theorem eval_insufficient (m : Metrics) (lr : LowRisk) (es : Option String) (crit : Criteria)
    (hmc : m.manualClosureFlag = false)
    (hcnt : m.sampleCount6W = none ∨ jsLt m.sampleCount6W lr.min_samples_six_week) :
    evaluateStatusFromMetrics m ⟨some lr, es⟩ (some crit)
      = .ok ⟨some crit.statuses.not_enough_data, ["Insufficient samples"], m⟩ := by
  simp only [evaluateStatusFromMetrics]
  rw [hmc]
  rw [if_neg (by simp), if_pos hcnt]

theorem eval_low_risk (m : Metrics) (lr : LowRisk) (es : Option String) (crit : Criteria)
    (g p grmax prmax : ℝ)
    (hmc : m.manualClosureFlag = false)
    (hcnt : ¬(m.sampleCount6W = none ∨ jsLt m.sampleCount6W lr.min_samples_six_week))
    (hg : m.geoMean6W = some g) (hp : m.p90_30d = some p)
    (hgr : lr.six_week_geomean = some ⟨some grmax⟩) (hpr : lr.p90_30day = some ⟨some prmax⟩)
    (h1 : g ≤ grmax) (h2 : p ≤ prmax) :
    evaluateStatusFromMetrics m ⟨some lr, es⟩ (some crit)
      = .ok ⟨some crit.statuses.low_risk, ["Pass geomean", "Pass single sample"], m⟩ := by
  simp only [evaluateStatusFromMetrics]
  rw [hmc, if_neg (by simp), if_neg hcnt, hg, hp, hgr, hpr]
  simp only []
  rw [if_pos (by exact ⟨by simpa [jsLe] using h1, by simpa [jsLe] using h2⟩)]

theorem eval_ok_reasons (m : Metrics) (tr : EvalRules) (crit : Option Criteria)
    (r : StatusResult) (h : evaluateStatusFromMetrics m tr crit = .ok r) :
    r.metrics = m ∧
      (m.manualClosureFlag = false → "Manual closure" ∉ r.reasons) := by
  unfold evaluateStatusFromMetrics at h
  split at h
  · exact absurd h (by simp)
  · split at h
    · exact absurd h (by simp)
    · split at h
      · cases h
        exact ⟨rfl, fun hmc => by simp_all⟩
      · split at h
        · cases h
          exact ⟨rfl, fun _ => by simp⟩
        · split at h
          · cases h
            exact ⟨rfl, fun _ => by simp⟩
          · split at h
            · cases h
              exact ⟨rfl, fun _ => by simp⟩
            · split at h
              · exact absurd h (by simp)
              · split at h
                · exact absurd h (by simp)
                · split at h
                  · cases h
                    exact ⟨rfl, fun _ => by simp⟩
                  · cases h
                    refine ⟨rfl, fun _ => ?_⟩
                    split_ifs <;> simp

/-! Numeric primitive characterisation. -/

/-- The values `geomean` retains: finite and strictly positive. -/
def geomeanRetained (l : List (Option ℝ)) : List ℝ :=
  (l.filterMap id).filter fun v => decide (0 < v)

theorem geomean_filter_eq (l : List (Option ℝ)) :
    (l.filter fun v =>
        match v with
        | some x => decide (0 < x)
        | none => false)
      = (geomeanRetained l).map some := by
  induction l with
  | nil => rfl
  | cons v rest ih =>
    cases v with
    | none =>
      simpa [geomeanRetained, List.filterMap_cons, List.filter_cons] using ih
    | some x =>
      have hm : geomeanRetained (some x :: rest)
          = if 0 < x then x :: geomeanRetained rest else geomeanRetained rest := by
        unfold geomeanRetained
        rw [List.filterMap_cons]
        simp only [id]
        rw [List.filter_cons]
        by_cases hx : 0 < x
        · rw [if_pos (by simpa using hx), if_pos hx]
        · rw [if_neg (by simpa using hx), if_neg hx]
      rw [List.filter_cons]
      by_cases hx : 0 < x
      · rw [if_pos (by simpa using hx), hm, if_pos hx, List.map_cons, ih]
      · rw [if_neg (by simpa using hx), hm, if_neg hx, ih]

theorem geomean_eq (l : List (Option ℝ)) :
    geomean l
      = if geomeanRetained l = [] then none
        else some (Real.exp
          (((geomeanRetained l).map Real.log).sum / (geomeanRetained l).length)) := by
  unfold geomean
  rw [geomean_filter_eq]
  by_cases h : geomeanRetained l = []
  · simp [h]
  · rw [if_neg h, if_neg (by simpa using h)]
    have h1 : ((geomeanRetained l).map some).map (fun v => Real.log (v.getD 0))
        = (geomeanRetained l).map Real.log := by
      rw [List.map_map]
      exact List.map_congr_left fun x _ => rfl
    have h2 : (((geomeanRetained l).map some).length : ℝ)
        = ((geomeanRetained l).length : ℝ) := by simp
    rw [h1, h2]

/-! Concrete configuration used for witnesses and counterexamples: a
freshwater rule block with a minimum of five six-week samples and both
thresholds at 10, indicator bacteria E. coli, else-status "caution". -/

/-- Status catalog of the concrete test configuration. -/
def stdStatuses : StatusCatalog :=
  { closure := ⟨"Closure"⟩
    not_enough_data := ⟨"Not enough data"⟩
    low_risk := ⟨"Low risk"⟩
    lookup := fun n => if n = "caution" then some ⟨"Use caution"⟩ else none }

/-- Concrete `low_risk` rule block. -/
def stdLowRisk : LowRisk := ⟨some 5, some ⟨some 10⟩, some ⟨some 10⟩⟩

/-- Concrete freshwater water-body rules. -/
def stdFreshWB : WBRules := ⟨some stdLowRisk, some "caution", some "E. coli"⟩

/-- Concrete criteria configuration. -/
def critStd : Criteria :=
  { rules := some ⟨none, some stdFreshWB, none, none⟩
    statuses := stdStatuses
    analytes := none }

/-- C10: for an empty record list and any as-of date and options,
`computeWindowMetrics` returns zero sample counts, NaN geomean and p90, and
a cleared manual-closure flag, without raising an error (the embedding is a
total function on list inputs). -/
theorem C10_empty_records (asOf : ℤ) (opts : WMOpts) :
    computeWindowMetrics [] asOf opts = ⟨some 0, none, none, some 0, false⟩ := by
  simp [computeWindowMetrics, geomean, quantile]

/-- C4: whenever the manual-closure flag is not set and the six-week sample
count is non-finite or strictly below the configured minimum,
`evaluateStatusFromMetrics` returns the not-enough-data status with reason
"Insufficient samples", regardless of the geomean and percentile values. -/
theorem C4_insufficient_samples (m : Metrics) (lr : LowRisk) (es : Option String)
    (crit : Criteria)
    (hmc : m.manualClosureFlag = false)
    (hcnt : m.sampleCount6W = none ∨
      ∃ c mn, m.sampleCount6W = some c ∧ lr.min_samples_six_week = some mn ∧ c < mn) :
    evaluateStatusFromMetrics m ⟨some lr, es⟩ (some crit)
      = .ok ⟨some crit.statuses.not_enough_data, ["Insufficient samples"], m⟩ := by
  refine eval_insufficient m lr es crit hmc ?_
  rcases hcnt with h | ⟨c, mn, hc, hmn, hlt⟩
  · exact Or.inl h
  · refine Or.inr ?_
    rw [hc, hmn]
    exact hlt

/-- Witness for C4 at a concrete metrics value. -/
theorem C4_insufficient_samples_witness :
    (⟨some 3, some 1, some 1, none, false⟩ : Metrics).manualClosureFlag = false ∧
    evaluateStatusFromMetrics ⟨some 3, some 1, some 1, none, false⟩
        ⟨some stdLowRisk, some "caution"⟩ (some critStd)
      = .ok ⟨some critStd.statuses.not_enough_data, ["Insufficient samples"],
          ⟨some 3, some 1, some 1, none, false⟩⟩ :=
  ⟨rfl,
    C4_insufficient_samples ⟨some 3, some 1, some 1, none, false⟩ stdLowRisk
      (some "caution") critStd rfl
      (Or.inr ⟨3, 5, rfl, rfl, by norm_num⟩)⟩

/-- C6: `geomean` retains exactly the finite strictly positive inputs,
returns NaN when none remain and otherwise the exponential of the mean log;
in particular `geomean [] = NaN`, `geomean [0, −1] = NaN` and
`geomean [x] = x` for positive `x`. -/
theorem C6_geomean_spec :
    (∀ l : List (Option ℝ),
      (geomeanRetained l = [] → geomean l = none) ∧
      (geomeanRetained l ≠ [] →
        geomean l = some (Real.exp
          (((geomeanRetained l).map Real.log).sum / (geomeanRetained l).length)))) ∧
    geomean [] = none ∧
    geomean [some 0, some (-1)] = none ∧
    (∀ x : ℝ, 0 < x → geomean [some x] = some x) := by
  refine ⟨fun l => ⟨fun h => ?_, fun h => ?_⟩, ?_, ?_, fun x hx => ?_⟩
  · rw [geomean_eq, if_pos h]
  · rw [geomean_eq, if_neg h]
  · rfl
  · rw [geomean_eq]
    norm_num [geomeanRetained]
  · rw [geomean_eq]
    have hret : geomeanRetained [some x] = [x] := by
      simp [geomeanRetained, hx]
    rw [hret, if_neg (by simp)]
    simp [Real.exp_log hx]

/-- Witness for C6 at a concrete positive input. -/
theorem C6_geomean_spec_witness :
    (0 : ℝ) < 2 ∧ geomean [some 2] = some 2 :=
  ⟨by norm_num, C6_geomean_spec.2.2.2 2 (by norm_num)⟩

/-- C9: on any `cumsum` prefix array and arbitrary (possibly negative or
out-of-range) indices, `windowSum` clamps both bounds in range (so its two
array accesses are in bounds), returns 0 on an empty clamped window, and is
non-negative for non-negative inputs. -/
theorem C9_windowSum_safe (src : List ℝ) (i0 i1 : ℤ) :
    ((wsLo (cumsum src).length i0).toNat < (cumsum src).length ∧
      (wsHi (cumsum src).length i1).toNat < (cumsum src).length) ∧
    (wsHi (cumsum src).length i1 ≤ wsLo (cumsum src).length i0 →
      windowSum (cumsum src) i0 i1 = 0) ∧
    ((∀ x ∈ src, 0 ≤ x) → 0 ≤ windowSum (cumsum src) i0 i1) := by
  have hlen := cumsum_length src
  refine ⟨⟨?_, ?_⟩, fun h => ?_, fun hnn => ?_⟩
  · unfold wsLo
    omega
  · unfold wsHi
    omega
  · unfold windowSum
    rw [if_pos h]
  · unfold windowSum
    by_cases h : wsHi (cumsum src).length i1 ≤ wsLo (cumsum src).length i0
    · rw [if_pos h]
    · rw [if_neg h]
      have ha : (wsLo (cumsum src).length i0).toNat ≤ src.length := by
        unfold wsLo at *
        omega
      have hb : (wsHi (cumsum src).length i1).toNat ≤ src.length := by
        unfold wsHi at *
        omega
      have hab : (wsLo (cumsum src).length i0).toNat ≤ (wsHi (cumsum src).length i1).toNat := by
        unfold wsLo wsHi at *
        omega
      rw [cumsum_getD src _ hb, cumsum_getD src _ ha]
      rw [take_sum_sub src _ _ hab]
      refine List.sum_nonneg ?_
      intro x hx
      exact hnn x (List.take_subset _ _ (List.drop_subset _ _ hx))

/-- Witness for C9 at a concrete array and out-of-range indices. -/
theorem C9_windowSum_safe_witness :
    (∀ x ∈ [(2 : ℝ), 3], 0 ≤ x) ∧ 0 ≤ windowSum (cumsum [(2 : ℝ), 3]) (-41) 0 :=
  ⟨by norm_num, (C9_windowSum_safe [(2 : ℝ), 3] (-41) 0).2.2 (by norm_num)⟩

/-! Claim C5: the counting filter of `computeWindowMetrics`. -/

/-- Eligibility predicate as the specification states it: no rapid-test
(ddPCR) marker in the lower-cased method name, exact analyte match when an
indicator is specified, finite numeric result, and a sample date on or
before `asOf` at a gap of at most `days` days. -/
def eligible (asOf : ℤ) (ind : Option String) (days : ℤ) (r : Record) : Prop :=
  jsIncludes (jsToLower (r.MethodName.getD "")) "ddpcr" = false
  ∧ (∀ a : String, ind = some a → r.Analyte = some a)
  ∧ (toNum r.Result).isSome = true
  ∧ ∃ d, r.SampleDate = some d ∧ d ≤ asOf ∧ asOf - d ≤ days

theorem eligible_iff (asOf : ℤ) (ind : Option String) (days : ℤ) (r : Record)
    (hind : ind = none ∨ ∃ a, ind = some a ∧ a ≠ "") :
    ((toNum r.Result).isSome && (isValidRec ind r && inLastDays asOf days r))
      = decide (eligible asOf ind days r) := by
  rw [Bool.eq_iff_iff]
  simp only [Bool.and_eq_true, decide_eq_true_eq]
  unfold isValidRec inLastDays eligible
  constructor
  · rintro ⟨hres, hvalid, hdate⟩
    split at hvalid
    · exact absurd hvalid (by simp)
    · split at hvalid
      · exact absurd hvalid (by simp)
      · rename_i hdd hana
        refine ⟨by simpa using hdd, ?_, hres, ?_⟩
        · intro a ha
          rcases hind with h | ⟨b, hb, hbne⟩
          · rw [h] at ha
            exact absurd ha (by simp)
          · rw [hb] at ha hana
            injection ha with hba
            subst hba
            have h2 : (truthyStr (some b) && !(r.Analyte == some b)) = false := by
              revert hana
              cases truthyStr (some b) && !(r.Analyte == some b) <;> simp
            have htr : truthyStr (some b) = true := by simp [truthyStr, hbne]
            rw [htr, Bool.true_and] at h2
            have h3 : (r.Analyte == some b) = true := by
              revert h2
              cases r.Analyte == some b <;> simp
            exact eq_of_beq h3
        · revert hdate
          cases hsd : r.SampleDate with
          | none => simp
          | some d =>
            intro hdate
            rw [Bool.and_eq_true] at hdate
            exact ⟨d, rfl, of_decide_eq_true hdate.1, of_decide_eq_true hdate.2⟩
  · rintro ⟨hdd, hana, hres, d, hsd, h1, h2⟩
    refine ⟨hres, ?_, ?_⟩
    · rw [if_neg (by simp [hdd])]
      rcases hind with h | ⟨b, hb, hbne⟩
      · rw [if_neg (by simp [h, truthyStr])]
      · have hab := hana b hb
        rw [if_neg (by rw [hb]; simp [truthyStr, hab])]
    · rw [hsd]
      simp [h1, h2]

theorem filter_count_eq (records : List Record) (asOf : ℤ) (ind : Option String) (days : ℤ)
    (hind : ind = none ∨ ∃ a, ind = some a ∧ a ≠ "") :
    ((((records.filter fun r => isValidRec ind r && inLastDays asOf days r).map fun r =>
        toNum r.Result).filter Option.isSome).length)
      = (records.filter fun r => decide (eligible asOf ind days r)).length := by
  rw [List.filter_map, List.length_map, List.filter_filter]
  refine congrArg List.length (List.filter_congr fun r _ => ?_)
  exact eligible_iff asOf ind days r hind

/-- C5: `computeWindowMetrics` counts a record in the `N`-day window
(`N = 42` for the six-week count, `N = 30` for the thirty-day count)
exactly when its method name lacks the ddPCR marker (case-insensitive
substring), its analyte equals the indicator when one is specified, its
numeric result is finite, and its sample date is on or before the as-of
date with a gap of at most `N` days (inclusive). -/
theorem C5_window_counting (records : List Record) (asOf : ℤ) (ind : Option String)
    (hind : ind = none ∨ ∃ a, ind = some a ∧ a ≠ "") :
    (computeWindowMetrics records asOf ⟨ind⟩).sampleCount6W
        = some (((records.filter fun r => decide (eligible asOf ind 42 r)).length : ℝ))
      ∧ (computeWindowMetrics records asOf ⟨ind⟩).sampleCount30D
        = some (((records.filter fun r => decide (eligible asOf ind 30 r)).length : ℝ)) := by
  unfold computeWindowMetrics
  constructor
  · simp only []
    rw [filter_count_eq records asOf ind 42 hind]
  · simp only []
    rw [filter_count_eq records asOf ind 30 hind]

/-! Claim C3: the prefix-sum six-week metrics agree with the naive
windowed definitions. -/

theorem foldl_min_le_init (l : List Sample) (a : ℤ) :
    l.foldl (fun m t => min m t.day) a ≤ a := by
  induction l generalizing a with
  | nil => simp
  | cons s rest ih =>
    simp only [List.foldl_cons]
    exact le_trans (ih (min a s.day)) (min_le_left a s.day)

theorem foldl_min_le_mem (l : List Sample) (a : ℤ) :
    ∀ s ∈ l, l.foldl (fun m t => min m t.day) a ≤ s.day := by
  induction l generalizing a with
  | nil => simp
  | cons t rest ih =>
    intro s hs
    rcases List.mem_cons.mp hs with h | h
    · subst h
      exact le_trans (foldl_min_le_init rest (min a s.day)) (min_le_right a s.day)
    · exact ih (min a t.day) s h

theorem minDayOf_le (samples : List Sample) : ∀ s ∈ samples, minDayOf samples ≤ s.day := by
  cases samples with
  | nil => simp
  | cons t rest =>
    intro s hs
    rcases List.mem_cons.mp hs with h | h
    · subst h
      exact foldl_min_le_init rest s.day
    · exact foldl_min_le_mem rest t.day s h

theorem idx_nonneg (samples : List Sample) : ∀ s ∈ samples, 0 ≤ s.day + offsetOf samples := by
  intro s hs
  have := minDayOf_le samples s hs
  unfold offsetOf startDayOf
  omega

/-- The naive six-week window filter on array indices, `[j − 41, j]`. -/
def win6Filter (samples : List Sample) (j : ℤ) : List Sample :=
  samples.filter fun s =>
    decide (j - 41 ≤ s.day + offsetOf samples) && decide (s.day + offsetOf samples ≤ j)

theorem win6Filter_eq_inWin (samples : List Sample) (j : ℤ) :
    win6Filter samples j = samples.filter (inWin (offsetOf samples) (j - 41) j) := by
  unfold win6Filter
  refine List.filter_congr fun s hs => ?_
  have h0 := idx_nonneg samples s hs
  unfold inWin
  congr 1
  exact decide_eq_decide.mpr (by omega)

theorem pos_filter_comm (samples : List Sample) (off i0 j : ℤ) :
    ((samples.filter fun s => decide (0 < s.val)).filter (inWin off i0 j))
      = ((samples.filter (inWin off i0 j)).filter fun s => decide (0 < s.val)) := by
  rw [List.filter_filter, List.filter_filter]
  refine List.filter_congr fun s _ => ?_
  exact Bool.and_comm ..

theorem map_val_filter_pos (l : List Sample) :
    ((l.map Sample.val).filter fun v => decide (0 < v))
      = ((l.filter fun s => decide (0 < s.val)).map Sample.val) := by
  rw [List.filter_map]
  rfl

theorem geomeanRetained_map_some_val (l : List Sample) :
    geomeanRetained (l.map fun s => some s.val)
      = ((l.filter fun s => decide (0 < s.val)).map Sample.val) := by
  unfold geomeanRetained
  have h1 : (l.map fun s => some s.val).filterMap id = l.map Sample.val := by
    have : (l.map fun s => some s.val) = (l.map Sample.val).map some := by
      rw [List.map_map]
      rfl
    rw [this, List.filterMap_map]
    simp
  rw [h1, map_val_filter_pos]

/-- C3: for every day index `j` of the sweep, the prefix-sum six-week
metrics equal the naive definitions: the sample count is the number of
samples whose array index lies in `[j − 41, j]`, and the geomean is
`geomean` of the sample values in that window (exp of window log-sum over
window positive-count when positive, NaN otherwise). -/
theorem C3_metrics6w_refines (samples : List Sample) (today : ℤ) (j : ℕ)
    (hj : j < slotsOf samples today) :
    (metrics6wAtIndex (PcountOf samples today) (PposOf samples today)
        (PlogOf samples today) (j : ℤ)).sampleCount6W
      = ((win6Filter samples (j : ℤ)).length : ℝ)
    ∧ (metrics6wAtIndex (PcountOf samples today) (PposOf samples today)
        (PlogOf samples today) (j : ℤ)).geoMean6W
      = geomean ((win6Filter samples (j : ℤ)).map fun s => some s.val) := by
  have hj0 : (0 : ℤ) ≤ (j : ℤ) := by omega
  have hjn : (j : ℤ) < (slotsOf samples today : ℕ) := by exact_mod_cast hj
  have h0 : (j : ℤ) - 41 ≤ (j : ℤ) := by omega
  have hcount : windowSum (PcountOf samples today) ((j : ℤ) - 41) (j : ℤ)
      = ((win6Filter samples (j : ℤ)).length : ℝ) := by
    rw [PcountOf, windowSum_count samples (offsetOf samples) _ _ _ h0 hj0 hjn,
      win6Filter_eq_inWin]
  have hposc : windowSum (PposOf samples today) ((j : ℤ) - 41) (j : ℤ)
      = (((win6Filter samples (j : ℤ)).filter fun s => decide (0 < s.val)).length : ℝ) := by
    rw [PposOf, windowSum_pos samples (offsetOf samples) _ _ _ h0 hj0 hjn,
      pos_filter_comm, win6Filter_eq_inWin]
  have hlogs : windowSum (PlogOf samples today) ((j : ℤ) - 41) (j : ℤ)
      = (((win6Filter samples (j : ℤ)).filter fun s => decide (0 < s.val)).map fun s =>
          Real.log s.val).sum := by
    rw [PlogOf, windowSum_log samples (offsetOf samples) _ _ _ h0 hj0 hjn,
      pos_filter_comm, win6Filter_eq_inWin]
  constructor
  · unfold metrics6wAtIndex
    exact hcount
  · unfold metrics6wAtIndex
    simp only []
    rw [hposc, hlogs, geomean_eq, geomeanRetained_map_some_val]
    by_cases hempty : ((win6Filter samples (j : ℤ)).filter fun s => decide (0 < s.val)) = []
    · rw [if_neg (by rw [hempty]; simp), if_pos (by rw [hempty]; simp)]
    · have hlen : 0 < ((win6Filter samples (j : ℤ)).filter fun s =>
          decide (0 < s.val)).length := List.length_pos.mpr hempty
      rw [if_pos (by exact_mod_cast hlen), if_neg (by simpa using hempty)]
      have hmap : (((win6Filter samples (j : ℤ)).filter fun s =>
            decide (0 < s.val)).map Sample.val).map Real.log
          = ((win6Filter samples (j : ℤ)).filter fun s => decide (0 < s.val)).map fun s =>
              Real.log s.val := by
        rw [List.map_map]
        rfl
      rw [hmap]
      simp

/-- Witness for C3 at a concrete sample list and day index. -/
theorem C3_metrics6w_refines_witness :
    41 < slotsOf [⟨0, 1, ""⟩] 0 ∧
    (metrics6wAtIndex (PcountOf [⟨0, 1, ""⟩] 0) (PposOf [⟨0, 1, ""⟩] 0)
        (PlogOf [⟨0, 1, ""⟩] 0) ((41 : ℕ) : ℤ)).sampleCount6W
      = ((win6Filter [⟨0, 1, ""⟩] ((41 : ℕ) : ℤ)).length : ℝ) :=
  ⟨by decide, (C3_metrics6w_refines [⟨0, 1, ""⟩] 0 41 (by decide)).1⟩

/-! Series-builder structural lemmas shared by the history-path claims. -/

/-- The analyte the builder resolves for a station. -/
def builderAnalyte (records : List Record) (crit : Option Criteria)
    (flags : String → Option Bool) : Option String :=
  pickAnalyteForEnvironment records (stationIsSalt records flags) crit

/-- The prepared sample list of the builder. -/
def builderSamples (records : List Record) (crit : Option Criteria)
    (flags : String → Option Bool) : List Sample :=
  samplesOf records (builderAnalyte records crit flags)

/-- The day indices the sweep visits (the loop breaks past today). -/
def builderJs (records : List Record) (crit : Option Criteria)
    (flags : String → Option Bool) (today : ℤ) : List ℕ :=
  (List.range (slotsOf (builderSamples records crit flags) today)).takeWhile fun (j : ℕ) =>
    decide ((j : ℤ) + startDayOf (builderSamples records crit flags) ≤ today)

theorem build_eq (records : List Record) (crit : Option Criteria)
    (flags : String → Option Bool) (today : ℤ) :
    buildStatusSeriesForStation records crit flags today
      = if builderAnalyte records crit flags = none ∨ builderSamples records crit flags = []
        then .ok [noDataEntry crit today]
        else
          match sweepGoE entryKey
              (dayEntry crit (selectTypeRules crit (stationIsSalt records flags))
                (builderSamples records crit flags) today)
              (builderJs records crit flags today) [] none with
          | .error e => .error e
          | .ok out =>
            match out.getLast? with
            | none => .error "TypeError: cannot read date of undefined"
            | some last =>
              if last.date ≠ today then .ok (out ++ [{ last with date := today }])
              else .ok out := rfl

theorem dayEntry_ok (crit : Option Criteria) (tr : TypeRules) (samples : List Sample)
    (today : ℤ) (j : ℕ) (e : Entry) (h : dayEntry crit tr samples today j = .ok e) :
    e.date = startDayOf samples + j
      ∧ e.metrics = dayMetrics samples today j
      ∧ "Manual closure" ∉ e.reasons := by
  unfold dayEntry at h
  split at h
  · exact absurd h (by simp)
  · rename_i res hres
    cases h
    obtain ⟨hm, hnc⟩ := eval_ok_reasons _ _ _ _ hres
    exact ⟨rfl, hm, hnc rfl⟩

theorem sweepGoE_ok_extract (key : Entry → String) (f : ℕ → Except String Entry)
    (js : List ℕ) (out : List Entry) (prev : Option String) (res : List Entry)
    (h : sweepGoE key f js out prev = .ok res) :
    ∃ g : ℕ → Entry, (∀ j ∈ js, f j = .ok (g j)) ∧ res = sweepGoP key (js.map g) out prev := by
  have hall := sweepGoE_ok_forall key f js out prev res h
  refine ⟨fun j => if hj : ∃ e, f j = .ok e then hj.choose else default, ?_, ?_⟩
  · intro j hj
    obtain ⟨e, he⟩ := hall j hj
    show f j = .ok (if hj : ∃ e, f j = .ok e then hj.choose else default)
    rw [dif_pos (⟨e, he⟩ : ∃ e, f j = .ok e)]
    exact (⟨e, he⟩ : ∃ e, f j = .ok e).choose_spec
  · have hg : ∀ j ∈ js,
        f j = .ok (if hj : ∃ e, f j = .ok e then hj.choose else default) := by
      intro j hj
      obtain ⟨e, he⟩ := hall j hj
      rw [dif_pos (⟨e, he⟩ : ∃ e, f j = .ok e)]
      exact (⟨e, he⟩ : ∃ e, f j = .ok e).choose_spec
    have := sweepGoE_eq_sweepGoP key f _ js hg out prev
    rw [this] at h
    exact (Except.ok.injEq .. ▸ h).symm

theorem getLast?_mem (l : List Entry) (a : Entry) (h : l.getLast? = some a) : a ∈ l := by
  rcases List.mem_getLast?_eq_getLast (show a ∈ l.getLast? from by rw [h]; rfl) with ⟨hne, heq⟩
  rw [heq]
  exact List.getLast_mem hne

/-- Members of the sweep output are per-day entries for visited day
indices. -/
theorem build_ok_mem (records : List Record) (crit : Option Criteria)
    (flags : String → Option Bool) (today : ℤ) (l : List Entry) (e : Entry)
    (h : buildStatusSeriesForStation records crit flags today = .ok l) (he : e ∈ l) :
    e = noDataEntry crit today ∨
    ∃ (j : ℕ) (e' : Entry), j ∈ builderJs records crit flags today ∧
      dayEntry crit (selectTypeRules crit (stationIsSalt records flags))
        (builderSamples records crit flags) today j = .ok e' ∧
      (e = e' ∨ e = { e' with date := today }) := by
  rw [build_eq] at h
  split at h
  · cases h
    rcases List.mem_singleton.mp he with rfl
    exact Or.inl rfl
  · cases hsweep : sweepGoE entryKey
        (dayEntry crit (selectTypeRules crit (stationIsSalt records flags))
          (builderSamples records crit flags) today)
        (builderJs records crit flags today) [] none with
    | error e0 =>
      rw [hsweep] at h
      exact absurd h (by simp)
    | ok out =>
      rw [hsweep] at h
      have h2 : (match out.getLast? with
          | none => (Except.error "TypeError: cannot read date of undefined" :
              Except String (List Entry))
          | some last =>
            if last.date ≠ today then .ok (out ++ [{ last with date := today }])
            else .ok out) = .ok l := h
      obtain ⟨g, hg, hout⟩ := sweepGoE_ok_extract _ _ _ _ _ _ hsweep
      have hmem_out : ∀ x ∈ out, ∃ j ∈ builderJs records crit flags today, x = g j := by
        intro x hx
        rw [hout] at hx
        cases hjs : builderJs records crit flags today with
        | nil =>
          rw [hjs] at hx
          simp [sweepGoP] at hx
        | cons j0 rest =>
          rw [hjs, List.map_cons, sweepGoP_eq_destutter] at hx
          have hsub : x ∈ g j0 :: rest.map g :=
            (List.destutter'_sublist (rest.map g) _ (g j0)).subset hx
          rcases List.mem_cons.mp hsub with h1 | h1
          · exact ⟨j0, by simp, h1⟩
          · obtain ⟨j, hj, hxe⟩ := List.mem_map.mp h1
            exact ⟨j, by simp [hj], hxe.symm⟩
      cases hlast : out.getLast? with
      | none =>
        rw [hlast] at h2
        exact absurd h2 (by simp)
      | some last =>
        rw [hlast] at h2
        have h3 : (if last.date ≠ today then
            (Except.ok (out ++ [{ last with date := today }]) : Except String (List Entry))
          else .ok out) = .ok l := h2
        by_cases hdate : last.date ≠ today
        · rw [if_pos hdate] at h3
          cases h3
          rcases List.mem_append.mp he with h1 | h1
          · obtain ⟨j, hj, hx⟩ := hmem_out e h1
            exact Or.inr ⟨j, g j, hj, hg j hj, Or.inl hx⟩
          · rcases List.mem_singleton.mp h1 with rfl
            obtain ⟨j, hj, hx⟩ := hmem_out last (getLast?_mem out last hlast)
            exact Or.inr ⟨j, g j, hj, hg j hj, Or.inr (by rw [hx])⟩
        · rw [if_neg hdate] at h3
          cases h3
          obtain ⟨j, hj, hx⟩ := hmem_out e he
          exact Or.inr ⟨j, g j, hj, hg j hj, Or.inl hx⟩

/-- C8: the sweep always hands the evaluator a cleared manual-closure flag,
so no history segment ever carries the "Manual closure" reason. -/
theorem C8_no_manual_closure (records : List Record) (crit : Option Criteria)
    (flags : String → Option Bool) (today : ℤ) (l : List Entry)
    (h : buildStatusSeriesForStation records crit flags today = .ok l) :
    (∀ (samples : List Sample) (td : ℤ) (j : ℕ),
        (dayMetrics samples td j).manualClosureFlag = false)
      ∧ ∀ e ∈ l, "Manual closure" ∉ e.reasons := by
  refine ⟨fun _ _ _ => rfl, fun e he => ?_⟩
  rcases build_ok_mem records crit flags today l e h he with hnd | ⟨j, e', _, hde, hee⟩
  · rw [hnd]
    simp [noDataEntry]
  · have hnc := (dayEntry_ok _ _ _ _ _ _ hde).2.2
    rcases hee with rfl | rfl
    · exact hnc
    · exact hnc

/-- Witness for C8 on a concrete empty record set. -/
theorem C8_no_manual_closure_witness :
    buildStatusSeriesForStation [] (some critStd) (fun _ => some false) 0
        = .ok [noDataEntry (some critStd) 0]
      ∧ ∀ e ∈ [noDataEntry (some critStd) 0], "Manual closure" ∉ e.reasons :=
  ⟨rfl,
    (C8_no_manual_closure [] (some critStd) (fun _ => some false) 0
      [noDataEntry (some critStd) 0] rfl).2⟩

/-! Claim C2: the history-series invariants. -/

/-- Dates of a series are strictly increasing. -/
def seriesDatesStrictMono (l : List Entry) : Prop :=
  l.Chain' fun a b => a.date < b.date

/-- No two adjacent entries share the (status name, canonicalized reasons)
key. -/
def adjacentKeysDistinct (l : List Entry) : Prop :=
  l.Chain' fun a b => ¬(a.status_name = b.status_name ∧ a.reasonsKey = b.reasonsKey)

/-- The series invariant exactly as claimed. -/
def seriesClaimInvariant (today : ℤ) (l : List Entry) : Prop :=
  l ≠ [] ∧ seriesDatesStrictMono l ∧
    (∀ last, l.getLast? = some last → last.date = today) ∧ adjacentKeysDistinct l

theorem pair_eq_of_entryKey (a b : Entry)
    (h : a.status_name = b.status_name ∧ a.reasonsKey = b.reasonsKey) :
    entryKey a = entryKey b := by
  unfold entryKey
  rw [h.1, h.2]

/-- C2 (amended): every series the builder returns is non-empty with
strictly increasing dates ending exactly at today, and no two adjacent
entries share the status/reasons key, except possibly the final pair (the
terminal today-stamp appended when the last change predates today). -/
theorem C2_series_invariants (records : List Record) (crit : Option Criteria)
    (flags : String → Option Bool) (today : ℤ) (l : List Entry)
    (h : buildStatusSeriesForStation records crit flags today = .ok l) :
    l ≠ [] ∧ seriesDatesStrictMono l ∧
      (∀ last, l.getLast? = some last → last.date = today) ∧
      adjacentKeysDistinct l.dropLast := by
  rw [build_eq] at h
  split at h
  · cases h
    refine ⟨by simp, List.chain'_singleton _, ?_, by simp [adjacentKeysDistinct]⟩
    intro last hlast
    simp only [List.getLast?_singleton, Option.some.injEq] at hlast
    rw [← hlast]
    rfl
  · cases hsweep : sweepGoE entryKey
        (dayEntry crit (selectTypeRules crit (stationIsSalt records flags))
          (builderSamples records crit flags) today)
        (builderJs records crit flags today) [] none with
    | error e0 =>
      rw [hsweep] at h
      exact absurd h (by simp)
    | ok out =>
      rw [hsweep] at h
      have h2 : (match out.getLast? with
          | none => (Except.error "TypeError: cannot read date of undefined" :
              Except String (List Entry))
          | some last =>
            if last.date ≠ today then .ok (out ++ [{ last with date := today }])
            else .ok out) = .ok l := h
      obtain ⟨g, hg, hout⟩ := sweepGoE_ok_extract _ _ _ _ _ _ hsweep
      have hdates : ∀ j ∈ builderJs records crit flags today,
          (g j).date = startDayOf (builderSamples records crit flags) + j := fun j hj =>
        (dayEntry_ok _ _ _ _ _ _ (hg j hj)).1
      have hle_today : ∀ j ∈ builderJs records crit flags today,
          (j : ℤ) + startDayOf (builderSamples records crit flags) ≤ today := by
        intro j hj
        unfold builderJs at hj
        have hp := List.mem_takeWhile_imp hj
        simp only [decide_eq_true_eq] at hp
        exact hp
      have hjs_pw : (builderJs records crit flags today).Pairwise (· < ·) :=
        (List.pairwise_lt_range _).sublist (List.takeWhile_sublist _)
      have hdense_pw : ((builderJs records crit flags today).map g).Pairwise
          (fun a b => a.date < b.date) := by
        refine (List.pairwise_map).mpr ?_
        refine hjs_pw.imp_of_mem ?_
        intro a b ha hb hab
        rw [hdates a ha, hdates b hb]
        omega
      have hout_sub : List.Sublist out ((builderJs records crit flags today).map g) := by
        rw [hout]
        cases hjs : builderJs records crit flags today with
        | nil => simp [sweepGoP]
        | cons j0 rest =>
          rw [List.map_cons, sweepGoP_eq_destutter]
          exact List.destutter'_sublist (rest.map g) _ (g j0)
      have hout_dates : seriesDatesStrictMono out :=
        (hdense_pw.sublist hout_sub).chain'
      have hout_keys : out.Chain' (keyNe entryKey) := by
        rw [hout]
        cases hjs : builderJs records crit flags today with
        | nil => simp [sweepGoP, List.chain'_nil]
        | cons j0 rest =>
          rw [List.map_cons, sweepGoP_eq_destutter]
          exact List.destutter'_is_chain' (rest.map g) _ (g j0)
      have hout_adj : adjacentKeysDistinct out := by
        refine hout_keys.imp ?_
        intro a b hr hpair
        exact hr (pair_eq_of_entryKey a b hpair)
      have hout_le : ∀ x ∈ out, x.date ≤ today := by
        intro x hx
        rcases List.mem_map.mp (hout_sub.subset hx) with ⟨j, hj, hxe⟩
        rw [← hxe, hdates j hj]
        have := hle_today j hj
        omega
      cases hlast : out.getLast? with
      | none =>
        rw [hlast] at h2
        exact absurd h2 (by simp)
      | some last =>
        rw [hlast] at h2
        have hlastmem : last ∈ out := getLast?_mem out last hlast
        have h3 : (if last.date ≠ today then
            (Except.ok (out ++ [{ last with date := today }]) : Except String (List Entry))
          else .ok out) = .ok l := h2
        by_cases hdate : last.date ≠ today
        · rw [if_pos hdate] at h3
          cases h3
          have hlt : last.date < today := lt_of_le_of_ne (hout_le last hlastmem) hdate
          refine ⟨by simp, ?_, ?_, ?_⟩
          · refine hout_dates.append (List.chain'_singleton _) ?_
            intro x hx y hy
            rw [hlast] at hx
            simp only [Option.mem_def, Option.some.injEq] at hx
            simp only [List.head?_cons, Option.mem_def, Option.some.injEq] at hy
            rw [← hx, ← hy]
            exact hlt
          · intro lst hlst
            rw [List.getLast?_concat] at hlst
            cases hlst
            rfl
          · rw [List.dropLast_concat]
            exact hout_adj
        · rw [if_neg hdate] at h3
          cases h3
          refine ⟨List.ne_nil_of_mem hlastmem, hout_dates, ?_, ?_⟩
          · intro lst hlst
            rw [hlast] at hlst
            cases hlst
            omega
          · exact hout_adj.prefix (List.dropLast_prefix _)

theorem metrics6w_count_eq (samples : List Sample) (today : ℤ) (j : ℕ)
    (hj : j < slotsOf samples today) :
    (metrics6wAtIndex (PcountOf samples today) (PposOf samples today)
        (PlogOf samples today) (j : ℤ)).sampleCount6W
      = ((win6Filter samples (j : ℤ)).length : ℝ) := by
  have hj0 : (0 : ℤ) ≤ (j : ℤ) := by omega
  have hjn : (j : ℤ) < (slotsOf samples today : ℕ) := by exact_mod_cast hj
  have hdef : (metrics6wAtIndex (PcountOf samples today) (PposOf samples today)
      (PlogOf samples today) (j : ℤ)).sampleCount6W
      = windowSum (PcountOf samples today) ((j : ℤ) - 41) (j : ℤ) := rfl
  rw [hdef, PcountOf, windowSum_count samples (offsetOf samples) _ _ _ (by omega) hj0 hjn,
    win6Filter_eq_inWin]

theorem dayEntry_insufficient (crit : Criteria) (tr : TypeRules) (samples : List Sample)
    (today : ℤ) (j : ℕ) (mn : ℝ)
    (hj : j < slotsOf samples today)
    (hmn : tr.low_risk.min_samples_six_week = some mn)
    (hcnt : ((win6Filter samples (j : ℤ)).length : ℝ) < mn) :
    dayEntry (some crit) tr samples today j
      = .ok (mkEntry (startDayOf samples + j)
          ⟨some crit.statuses.not_enough_data, ["Insufficient samples"],
            dayMetrics samples today j⟩) := by
  have hclt : jsLt (dayMetrics samples today j).sampleCount6W
      tr.low_risk.min_samples_six_week := by
    rw [hmn]
    show (metrics6wAtIndex (PcountOf samples today) (PposOf samples today)
        (PlogOf samples today) (j : ℤ)).sampleCount6W < mn
    rw [metrics6w_count_eq samples today j hj]
    exact hcnt
  unfold dayEntry
  rw [eval_insufficient (dayMetrics samples today j) tr.low_risk tr.else_status crit rfl
    (Or.inr hclt)]

/-- The entry the sweep emits on an insufficient-samples day. -/
def insuffEntry (samples : List Sample) (crit : Criteria) (today : ℤ) (j : ℕ) : Entry :=
  mkEntry (startDayOf samples + j)
    ⟨some crit.statuses.not_enough_data, ["Insufficient samples"], dayMetrics samples today j⟩

/-- When every visited day is an insufficient-samples day, the compressed
series is the first day's entry followed by its today-dated copy. -/
theorem build_all_insufficient (records : List Record) (crit : Criteria)
    (flags : String → Option Bool) (today : ℤ) (mn : ℝ) (M : ℕ)
    (hcond : ¬(builderAnalyte records (some crit) flags = none ∨
      builderSamples records (some crit) flags = []))
    (hmn : (selectTypeRules (some crit) (stationIsSalt records flags)).low_risk.min_samples_six_week
      = some mn)
    (hjs : builderJs records (some crit) flags today = List.range (M + 1))
    (hslots : M + 1 ≤ slotsOf (builderSamples records (some crit) flags) today)
    (hcnt : ∀ j : ℕ, j < M + 1 →
      ((win6Filter (builderSamples records (some crit) flags) (j : ℤ)).length : ℝ) < mn)
    (hdate : startDayOf (builderSamples records (some crit) flags) ≠ today) :
    buildStatusSeriesForStation records (some crit) flags today
      = .ok [insuffEntry (builderSamples records (some crit) flags) crit today 0,
          { insuffEntry (builderSamples records (some crit) flags) crit today 0 with
            date := today }] := by
  rw [build_eq, if_neg hcond]
  have hg : ∀ j ∈ List.range (M + 1),
      dayEntry (some crit) (selectTypeRules (some crit) (stationIsSalt records flags))
        (builderSamples records (some crit) flags) today j
      = .ok (insuffEntry (builderSamples records (some crit) flags) crit today j) := by
    intro j hjm
    have hjlt : j < M + 1 := List.mem_range.mp hjm
    exact dayEntry_insufficient crit _ _ today j mn (by omega) hmn (hcnt j hjlt)
  rw [hjs, sweepGoE_eq_sweepGoP _ _
    (fun j => insuffEntry (builderSamples records (some crit) flags) crit today j)
    (List.range (M + 1)) hg [] none]
  have hsplit : List.range (M + 1) = 0 :: List.range' 1 M := by
    rw [List.range_eq_range', List.range'_succ]
  rw [hsplit, List.map_cons, sweepGoP_eq_destutter, destutter'_const_key]
  · simp only [List.getLast?_singleton]
    rw [if_pos (by
      show startDayOf (builderSamples records (some crit) flags) + ((0 : ℕ) : ℤ) ≠ today
      simpa using hdate)]
    rfl
  · intro x hx
    rcases List.mem_map.mp hx with ⟨j, _, rfl⟩
    rfl

/-! Concrete counterexample input for C2: a single sample dated today; every
sweep day is insufficient, so the series is one segment and the terminal
today-stamp duplicates its status and reasons key. -/

/-- All-freshwater flags. -/
def c2Flags : String → Option Bool := fun _ => some false

/-- A single E. coli culture sample with value 1 on day 0. -/
def c2Records : List Record := [⟨some "X", some "E. coli", none, some 0, .num 1, false⟩]

/-- The builder's sample list for the C2 counterexample input. -/
def c2Samples : List Sample := builderSamples c2Records (some critStd) c2Flags

/-- C2 counterexample: on the single-sample record set, the returned series
is a two-entry list whose adjacent entries share the same status name and
reasons key (the claimed invariant fails on its change-point clause). -/
theorem C2_counterexample :
    buildStatusSeriesForStation c2Records (some critStd) c2Flags 0
        = .ok [insuffEntry c2Samples critStd 0 0,
            { insuffEntry c2Samples critStd 0 0 with date := 0 }]
      ∧ ¬ seriesClaimInvariant 0 [insuffEntry c2Samples critStd 0 0,
            { insuffEntry c2Samples critStd 0 0 with date := 0 }] := by
  constructor
  · refine build_all_insufficient c2Records critStd c2Flags 0 5 41 ?_ rfl ?_ ?_ ?_ ?_
    · rw [not_or]
      exact ⟨by decide, by intro hc; exact absurd (congrArg List.length hc) (by decide)⟩
    · decide
    · decide
    · intro j hj
      have hle : (win6Filter c2Samples (j : ℤ)).length ≤ 1 := by
        have h1 : c2Samples = [⟨0, 1, ""⟩] := rfl
        calc (win6Filter c2Samples (j : ℤ)).length
            ≤ c2Samples.length := List.length_filter_le _ _
          _ = 1 := by rw [h1]; rfl
      calc ((win6Filter c2Samples (j : ℤ)).length : ℝ)
          ≤ 1 := by exact_mod_cast hle
        _ < 5 := by norm_num
    · decide
  · rintro ⟨-, -, -, hadj⟩
    unfold adjacentKeysDistinct at hadj
    exact (List.chain'_cons.mp hadj).1 ⟨rfl, rfl⟩

/-! Claim C1: the two status code paths on the same record set. -/

theorem quantile_const (c : ℝ) (l : List (Option ℝ)) (p : ℝ) (hp0 : 0 ≤ p) (hp1 : p ≤ 1)
    (hne : l.filterMap id ≠ []) (hall : ∀ x ∈ l.filterMap id, x = c) :
    quantile l p = some c := by
  unfold quantile
  set a := (l.filterMap id).insertionSort (· ≤ ·) with ha
  have hperm : a.Perm (l.filterMap id) := List.perm_insertionSort _ _
  have hlen : a.length = (l.filterMap id).length := hperm.length_eq
  have hmem : ∀ x ∈ a, x = c := fun x hx => hall x (hperm.mem_iff.mp hx)
  have hlen0 : ¬ a.length = 0 := by
    rw [hlen]
    intro hzero
    exact hne (List.length_eq_zero.mp hzero)
  rw [if_neg hlen0]
  have hgetD : ∀ i : ℕ, i < a.length → a.getD i 0 = c := by
    intro i hi
    rw [List.getD_eq_getElem a 0 hi]
    exact hmem _ (List.getElem_mem hi)
  have hlen1 : (1 : ℕ) ≤ a.length := Nat.one_le_iff_ne_zero.mpr hlen0
  have hlenR : (0 : ℝ) ≤ (a.length : ℝ) - 1 := by
    have : (1 : ℝ) ≤ (a.length : ℝ) := by exact_mod_cast hlen1
    linarith
  have hidx0 : 0 ≤ ((a.length : ℝ) - 1) * p := mul_nonneg hlenR hp0
  have hidx1 : ((a.length : ℝ) - 1) * p ≤ (a.length : ℝ) - 1 := by
    have := mul_le_mul_of_nonneg_left hp1 hlenR
    simpa using this
  have hcast : ((a.length : ℝ) - 1) = (((a.length : ℤ) - 1 : ℤ) : ℝ) := by push_cast; ring
  have hfloor_int : ⌊((a.length : ℝ) - 1)⌋ = (a.length : ℤ) - 1 := by
    rw [hcast, Int.floor_intCast]
  have hceil_int : ⌈((a.length : ℝ) - 1)⌉ = (a.length : ℤ) - 1 := by
    rw [hcast, Int.ceil_intCast]
  have hflo : 0 ≤ ⌊((a.length : ℝ) - 1) * p⌋ := Int.floor_nonneg.mpr hidx0
  have hflo_le : ⌊((a.length : ℝ) - 1) * p⌋ ≤ (a.length : ℤ) - 1 := by
    have h1 := Int.floor_le_floor hidx1
    rw [hfloor_int] at h1
    exact h1
  have hcei_le : ⌈((a.length : ℝ) - 1) * p⌉ ≤ (a.length : ℤ) - 1 := by
    have h1 := Int.ceil_le_ceil hidx1
    rw [hceil_int] at h1
    exact h1
  have hlo_lt : (⌊((a.length : ℝ) - 1) * p⌋).toNat < a.length := by omega
  have hhi_lt : (⌈((a.length : ℝ) - 1) * p⌉).toNat < a.length := by omega
  by_cases heq : ⌊((a.length : ℝ) - 1) * p⌋ = ⌈((a.length : ℝ) - 1) * p⌉
  · rw [if_pos heq, hgetD _ hlo_lt]
  · rw [if_neg heq, hgetD _ hlo_lt, hgetD _ hhi_lt]
    ring_nf

/-- All-freshwater flags for C1. -/
def c1Flags : String → Option Bool := fun _ => some false

/-- Five E. coli culture samples of value 1 spanning exactly 42 days: one
dated exactly 42 days before today (day 0), the rest inside the window. -/
def c1Records : List Record :=
  [⟨some "X", some "E. coli", none, some (-42), .num 1, false⟩,
   ⟨some "X", some "E. coli", none, some (-30), .num 1, false⟩,
   ⟨some "X", some "E. coli", none, some (-20), .num 1, false⟩,
   ⟨some "X", some "E. coli", none, some (-10), .num 1, false⟩,
   ⟨some "X", some "E. coli", none, some 0, .num 1, false⟩]

/-- The builder's sample list for the C1 input. -/
def c1Samples : List Sample := builderSamples c1Records (some critStd) c1Flags

theorem c1_geomean : geomean [some (1 : ℝ), some 1, some 1, some 1, some 1] = some 1 := by
  have h01 : (decide ((0 : ℝ) < 1)) = true := decide_eq_true (by norm_num)
  have hret : geomeanRetained [some (1 : ℝ), some 1, some 1, some 1, some 1]
      = [1, 1, 1, 1, 1] := by
    unfold geomeanRetained
    simp [List.filter_cons, h01]
  rw [geomean_eq, hret, if_neg (by simp)]
  norm_num [Real.log_one, Real.exp_zero]

theorem c1_p90 : quantile [some (1 : ℝ), some 1, some 1, some 1] 0.9 = some 1 := by
  refine quantile_const 1 _ 0.9 (by norm_num) (by norm_num) (by simp) ?_
  intro x hx
  simp at hx
  exact hx

set_option maxHeartbeats 1600000 in
theorem c1_current :
    currentStatusForStation c1Records (some critStd) false 0
      = .ok ⟨some critStd.statuses.low_risk, ["Pass geomean", "Pass single sample"],
          computeWindowMetrics c1Records 0 ⟨some "E. coli"⟩⟩ := by
  have hg : (computeWindowMetrics c1Records 0 ⟨some "E. coli"⟩).geoMean6W
      = geomean [some (1 : ℝ), some 1, some 1, some 1, some 1] := rfl
  have hp : (computeWindowMetrics c1Records 0 ⟨some "E. coli"⟩).p90_30d
      = quantile [some (1 : ℝ), some 1, some 1, some 1] 0.9 := rfl
  have hcnt : (computeWindowMetrics c1Records 0 ⟨some "E. coli"⟩).sampleCount6W
      = some (((5 : ℕ) : ℝ)) := rfl
  show evaluateStatusFromMetrics (computeWindowMetrics c1Records 0 ⟨some "E. coli"⟩)
      ⟨some stdLowRisk, some "caution"⟩ (some critStd) = _
  refine eval_low_risk _ stdLowRisk (some "caution") critStd 1 1 10 10 rfl ?_ ?_ ?_ rfl rfl
    (by norm_num) (by norm_num)
  · rw [hcnt]
    rintro (h | h)
    · exact absurd h (by simp)
    · have : ((5 : ℕ) : ℝ) < 5 := h
      norm_num at this
  · rw [hg]
    exact c1_geomean
  · rw [hp]
    exact c1_p90

set_option maxHeartbeats 1600000 in
theorem c1_history :
    buildStatusSeriesForStation c1Records (some critStd) c1Flags 0
      = .ok [insuffEntry c1Samples critStd 0 0,
          { insuffEntry c1Samples critStd 0 0 with date := 0 }] := by
  refine build_all_insufficient c1Records critStd c1Flags 0 5 83 ?_ rfl ?_ ?_ ?_ ?_
  · rw [not_or]
    exact ⟨by decide, by intro hc; exact absurd (congrArg List.length hc) (by decide)⟩
  · decide
  · decide
  · intro j _
    have hle : (win6Filter c1Samples (j : ℤ)).length ≤ 4 := by
      have hsam : c1Samples
          = [⟨-42, 1, ""⟩, ⟨-30, 1, ""⟩, ⟨-20, 1, ""⟩, ⟨-10, 1, ""⟩, ⟨0, 1, ""⟩] := rfl
      have hoff : offsetOf c1Samples = 83 := by decide
      unfold win6Filter
      rw [hoff, hsam]
      simp only [List.filter_cons, List.filter_nil]
      split_ifs <;> simp_all <;> omega
    calc ((win6Filter c1Samples (j : ℤ)).length : ℝ)
        ≤ 4 := by exact_mod_cast hle
      _ < 5 := by norm_num
  · decide

/-- C1 (code bug): on the same record set, the single-date current-status
query at asOf = today returns Low risk while the last segment of the
history series is Not enough data — the two code paths disagree, because
`computeWindowMetrics` counts a sample dated exactly 42 days before today
(inclusive 43-day span) while the sweep window `[j − 41, j]` spans 42 day
indices. -/
theorem C1_paths_disagree :
    (currentStatusForStation c1Records (some critStd) false 0).map
        (fun r => r.status.map Status.name) = .ok (some "Low risk")
    ∧ (buildStatusSeriesForStation c1Records (some critStd) c1Flags 0).map
        (fun l => (l.getLast?).map Entry.status_name) = .ok (some (some "Not enough data")) := by
  constructor
  · rw [c1_current]
    rfl
  · rw [c1_history]
    rfl

/-! Claim C7: behaviour on missing configuration. -/

/-- Criteria with no per-water-body-type rule sets, only defaults. -/
def critNoWB : Criteria :=
  { rules := some ⟨none, none, some ⟨some stdLowRisk, some "caution"⟩, none⟩
    statuses := stdStatuses
    analytes := none }

/-- C7 counterexample: with no rule set for the water-body type,
`selectTypeRules` silently falls back to the default rules instead of
raising, and with no resolvable indicator analyte the series builder
returns a single not-enough-data entry (an `ok` value, not an error). -/
theorem C7_counterexample :
    selectTypeRules (some critNoWB) false = ⟨stdLowRisk, some "caution"⟩
    ∧ buildStatusSeriesForStation [] (some critNoWB) (fun _ => none) 0
        = .ok [noDataEntry (some critNoWB) 0] :=
  ⟨rfl, rfl⟩

/-- C7 (amended): when the configuration supplies no rule set for the
station's water-body type, `selectTypeRules` silently falls back to
`criteria.rules.default` (or the empty rule block); when no indicator
analyte is resolvable, `buildStatusSeriesForStation` returns a single
not-enough-data segment dated today rather than raising an error. -/
theorem C7_silent_defaults :
    (∀ (crit : Option Criteria) (isSalt : Bool), wbRulesOf crit isSalt = none →
      selectTypeRules crit isSalt
        = ⟨(defaultLowRiskOf crit).getD emptyLowRisk, defaultStatusOf crit⟩)
    ∧ ∀ (records : List Record) (crit : Option Criteria) (flags : String → Option Bool)
        (today : ℤ), builderAnalyte records crit flags = none →
          buildStatusSeriesForStation records crit flags today
            = .ok [noDataEntry crit today] := by
  constructor
  · intro crit isSalt h
    unfold selectTypeRules
    rw [h]
    simp only [Option.getD_none, Option.none_orElse]
    rfl
  · intro records crit flags today h
    rw [build_eq, if_pos (Or.inl h)]

/-- Witness for C7 (amended) at a concrete configuration and record set. -/
theorem C7_silent_defaults_witness :
    wbRulesOf (some critNoWB) false = none
    ∧ selectTypeRules (some critNoWB) false
        = ⟨(defaultLowRiskOf (some critNoWB)).getD emptyLowRisk,
            defaultStatusOf (some critNoWB)⟩
    ∧ builderAnalyte [] (some critNoWB) (fun _ => none) = none
    ∧ buildStatusSeriesForStation [] (some critNoWB) (fun _ => none) 0
        = .ok [noDataEntry (some critNoWB) 0] :=
  ⟨rfl, C7_silent_defaults.1 (some critNoWB) false rfl, rfl,
    C7_silent_defaults.2 [] (some critNoWB) (fun _ => none) 0 rfl⟩

/-- Witness for C2 (amended) on a concrete record set. -/
theorem C2_series_invariants_witness :
    buildStatusSeriesForStation [] (some critStd) (fun _ => some false) 0
        = .ok [noDataEntry (some critStd) 0]
      ∧ [noDataEntry (some critStd) 0] ≠ []
      ∧ seriesDatesStrictMono [noDataEntry (some critStd) 0] :=
  ⟨rfl, (C2_series_invariants [] (some critStd) (fun _ => some false) 0 _ rfl).1,
    (C2_series_invariants [] (some critStd) (fun _ => some false) 0 _ rfl).2.1⟩

/-- Witness for C5 at a concrete record list and indicator. -/
theorem C5_window_counting_witness :
    ((some "E. coli" : Option String) = none ∨
      ∃ a, (some "E. coli" : Option String) = some a ∧ a ≠ "") ∧
    (computeWindowMetrics [] 0 ⟨some "E. coli"⟩).sampleCount6W
      = some ((([] : List Record).filter fun r =>
          decide (eligible 0 (some "E. coli") 42 r)).length : ℝ) :=
  ⟨Or.inr ⟨"E. coli", rfl, by simp⟩,
    (C5_window_counting [] 0 (some "E. coli") (Or.inr ⟨"E. coli", rfl, by simp⟩)).1⟩

end








